import Mathlib

/-!
Verification of the KES-to-ESO converter (`kes-to-eso.mjs`) against its
natural-language specification.

The program is a linear JavaScript pipeline over untyped YAML document
trees.  We embed those trees as the inductive type `JVal` (a JSON-like
value model with an explicit `undefined` constructor for JavaScript's
`undefined`), and embed each function of the source as a Lean function
over `JVal`.  JavaScript property access on `null`/`undefined` throws a
`TypeError`; fallible steps therefore live in `Except JsError`.
YAML parsing/serialization, globbing and the actual filesystem are out
of scope per the spec; the pipeline here starts from the parsed document
lists (one list per resolved file) and ends with the list of requested
writes (directory to create, path, serialized content).
-/

set_option autoImplicit false

namespace KesToEso

/-- A JavaScript/YAML value: `undefined` models JS `undefined`, objects are
ordered association lists (insertion order), numbers are integers (no
claim involves floats). -/
inductive JVal where
  | undefined
  | null
  | bool (b : Bool)
  | num (n : Int)
  | str (s : String)
  | arr (elems : List JVal)
  | obj (fields : List (String × JVal))

/-- A thrown JavaScript error aborting the run (the pipeline only ever
throws `TypeError`s: property access / `delete` / `.map` on an
unsuitable value). -/
inductive JsError where
  | typeError
deriving DecidableEq

/-- JS truthiness: `undefined`, `null`, `false`, `0` and `""` are falsy;
every object and array is truthy. -/
def JVal.truthy : JVal → Bool
  | .undefined => false
  | .null => false
  | .bool b => b
  | .num n => n != 0
  | .str s => s != ""
  | .arr _ => true
  | .obj _ => true

/-- `undefined` or `null` (property access on these throws). -/
def JVal.nullish : JVal → Bool
  | .undefined => true
  | .null => true
  | _ => false

/-- First binding of a key in an ordered field list. -/
def lookupField : List (String × JVal) → String → Option JVal
  | [], _ => none
  | (k', v) :: rest, k => if k' == k then some v else lookupField rest k

/-- Pure JS property read on a non-nullish value: a missing property (or
a property read on a primitive/array) yields `undefined`. -/
def JVal.jGet : JVal → String → JVal
  | .obj fs, k => (lookupField fs k).getD .undefined
  | _, _ => .undefined

/-- JS property read `v[k]`: throws `TypeError` when `v` is
`null`/`undefined`, otherwise reads as `jGet`. -/
def JVal.getF (v : JVal) (k : String) : Except JsError JVal :=
  if v.nullish then .error .typeError else .ok (v.jGet k)

/-- JS property assignment `o[k] = v`: replaces the binding in place if
the key exists, else appends it (JS insertion-order semantics).  Only
ever applied to objects in the pipeline; other values are returned
unchanged. -/
def setInList : List (String × JVal) → String → JVal → List (String × JVal)
  | [], k, v => [(k, v)]
  | (k', v') :: rest, k, v =>
    if k' == k then (k, v) :: rest else (k', v') :: setInList rest k v

def JVal.setField : JVal → String → JVal → JVal
  | .obj fs, k, v => .obj (setInList fs k v)
  | w, _, _ => w

/-- JS `delete o[k]` on an object (deleting an absent property is a
no-op; on a primitive or array it never removes a string key we use). -/
def JVal.removeField : JVal → String → JVal
  | .obj fs, k => .obj (fs.filter (fun p => !(p.1 == k)))
  | v, _ => v

/-- Whether an object carries the key at all (distinguishes an absent
field from one bound to `undefined`). -/
def JVal.hasField : JVal → String → Bool
  | .obj fs, k => (lookupField fs k).isSome
  | _, _ => false

/-- JS strict equality `v === s` against a string literal: true exactly
for the same string (no coercion). -/
def strictEqStr (v : JVal) (s : String) : Bool :=
  match v with
  | .str t => t == s
  | _ => false

/-- JS `a || b`. -/
def jsOr (a b : JVal) : JVal := if a.truthy then a else b

mutual
/-- JS string coercion as in a template literal `\x24{v}`. -/
def jsToString : JVal → String
  | .undefined => "undefined"
  | .null => "null"
  | .bool true => "true"
  | .bool false => "false"
  | .num n => toString n
  | .str s => s
  | .arr xs => String.intercalate "," (jsToStringArr xs)
  | .obj _ => "[object Object]"

/-- `Array.prototype.toString`: elements joined by commas, with nullish
elements rendered as the empty string. -/
def jsToStringArr : List JVal → List String
  | [] => []
  | .undefined :: rest => "" :: jsToStringArr rest
  | .null :: rest => "" :: jsToStringArr rest
  | x :: rest => jsToString x :: jsToStringArr rest
end

mutual
/-- The deep copy `JSON.parse(JSON.stringify(item))`: object fields
bound to `undefined` are dropped, array elements that are `undefined`
become `null`; everything else is copied structurally. -/
def jsonRound : JVal → JVal
  | .arr xs => .arr (jsonRoundArr xs)
  | .obj fs => .obj (jsonRoundObj fs)
  | v => v

def jsonRoundArr : List JVal → List JVal
  | [] => []
  | .undefined :: rest => .null :: jsonRoundArr rest
  | x :: rest => jsonRound x :: jsonRoundArr rest

def jsonRoundObj : List (String × JVal) → List (String × JVal)
  | [] => []
  | (_, .undefined) :: rest => jsonRoundObj rest
  | (k, v) :: rest => (k, jsonRound v) :: jsonRoundObj rest
end

mutual
/-- No `undefined` occurs anywhere in the value (true of every tree
produced by YAML parsing; on such values `jsonRound` is the
identity). -/
def noUndefined : JVal → Bool
  | .undefined => false
  | .arr xs => noUndefArr xs
  | .obj fs => noUndefObj fs
  | _ => true

def noUndefArr : List JVal → Bool
  | [] => true
  | x :: rest => noUndefined x && noUndefArr rest

def noUndefObj : List (String × JVal) → Bool
  | [] => true
  | (_, v) :: rest => noUndefined v && noUndefObj rest
end

mutual
/-- The key occurs (as an object key) anywhere inside the value,
including in nested maps. -/
def containsKey : JVal → String → Bool
  | .arr xs, k => containsKeyArr xs k
  | .obj fs, k => containsKeyObj fs k
  | _, _ => false

def containsKeyArr : List JVal → String → Bool
  | [], _ => false
  | x :: rest, k => containsKey x k || containsKeyArr rest k

def containsKeyObj : List (String × JVal) → String → Bool
  | [], _ => false
  | (k', v) :: rest, k => k' == k || containsKey v k || containsKeyObj rest k
end

/-! ## Monadic list helpers (explicit recursions standing for the JS
array iteration; an error thrown at any element aborts the whole
traversal, as in JS). -/

def exMapM {α β : Type} (f : α → Except JsError β) : List α → Except JsError (List β)
  | [] => .ok []
  | a :: as => do
    let b ← f a
    let bs ← exMapM f as
    return b :: bs

def exFlatMapM {α β : Type} (f : α → Except JsError (List β)) :
    List α → Except JsError (List β)
  | [] => .ok []
  | a :: as => do
    let bs ← f a
    let rest ← exFlatMapM f as
    return bs ++ rest

/-! ## The program, function by function (`kes-to-eso.mjs`). -/

/-- A diagnostic printed by `fail` via `console.error`: the resource
name (`item.metadata.name`, whatever value that is), the failing field,
and the expected value when the check was an equality check. -/
structure Diag where
  resourceName : JVal
  field : String
  expected : Option String

/-- `fail(item, field, value)` from the source: with a `value`, the
check is strict inequality `item[field] !== value`; without one, the
check is falsiness of `item[field]`.  On failure it prints a diagnostic
that dereferences `item.metadata.name` (throwing when `item.metadata`
is nullish) and returns `true`. -/
def fail (item : JVal) (field : String) (value : Option String) :
    Except JsError (Bool × Option Diag) := do
  match value with
  | none =>
    let fv ← item.getF field
    if fv.truthy then
      return (false, none)
    else
      let md ← item.getF "metadata"
      let nm ← md.getF "name"
      return (true, some ⟨nm, field, none⟩)
  | some v =>
    let fv ← item.getF field
    if strictEqStr fv v then
      return (false, none)
    else
      let md ← item.getF "metadata"
      let nm ← md.getF "name"
      return (true, some ⟨nm, field, some v⟩)

/-- The filter predicate
`!(fail(item,'apiVersion','kubernetes-client.io/v1') || fail(item,'kind','ExternalSecret') || fail(item,'spec'))`
with JS short-circuiting of `||`; returns whether the candidate is kept
together with the diagnostics it printed. -/
def checkItem (item : JVal) : Except JsError (Bool × List Diag) := do
  let (f1, d1) ← fail item "apiVersion" (some "kubernetes-client.io/v1")
  if f1 then return (false, d1.toList)
  else
    let (f2, d2) ← fail item "kind" (some "ExternalSecret")
    if f2 then return (false, d2.toList)
    else
      let (f3, d3) ← fail item "spec" none
      if f3 then return (false, d3.toList)
      else return (true, [])

/-- `.filter(...)` over the candidate list, collecting kept candidates
and printed diagnostics in order. -/
def filterCandidates : List JVal → Except JsError (List JVal × List Diag)
  | [] => .ok ([], [])
  | item :: rest => do
    let (keep, ds) ← checkItem item
    let (kept, diags) ← filterCandidates rest
    return (if keep then item :: kept else kept, ds ++ diags)

/-- The metadata keys deleted by `cleanKesItem`. -/
def strippedMetaKeys : List String :=
  ["creationTimestamp", "generation", "resourceVersion", "uid", "selfLink"]

/-- `delete copy.metadata.creationTimestamp; ...; delete copy.metadata.selfLink`
on an object metadata. -/
def stripMetaFields (fs : List (String × JVal)) : List (String × JVal) :=
  fs.filter (fun p => !(strippedMetaKeys.contains p.1))

/-- `delete copy.metadata.annotations?.['kubectl.kubernetes.io/last-applied-configuration']`:
optional chaining makes it a no-op when `annotations` is nullish, and
`delete` on a primitive or array never removes this key. -/
def stripLastApplied (a : JVal) : JVal :=
  match a with
  | .obj afs =>
    .obj (afs.filter (fun q => !(q.1 == "kubectl.kubernetes.io/last-applied-configuration")))
  | v => v

/-- Apply `stripLastApplied` to the `annotations` binding of an object
metadata (leaving its position untouched, as mutation does). -/
def stripMetaAnnot (md : JVal) : JVal :=
  match md with
  | .obj fs => .obj (fs.map (fun p => if p.1 == "annotations" then (p.1, stripLastApplied p.2) else p))
  | v => v

/-- The five `delete copy.metadata.<key>` statements: `delete` throws a
`TypeError` when its base (`copy.metadata`) is nullish; on an object it
removes the keys; on any other value these string keys do not exist and
the deletes are no-ops. -/
def deleteManagedMeta (md : JVal) : Except JsError JVal :=
  match md with
  | .undefined => .error .typeError
  | .null => .error .typeError
  | .obj fs => .ok (.obj (stripMetaFields fs))
  | v => .ok v

/-- `cleanKesItem` from the source: deep-copies via
`JSON.parse(JSON.stringify(item))`, deletes the five server-managed
metadata fields, removes the last-applied-configuration annotation, and
deletes the top-level `status`.  Being a pure function of its argument,
it cannot mutate the original tree. -/
def cleanKesItem (item : JVal) : Except JsError JVal := do
  let copy := jsonRound item
  let md ← copy.getF "metadata"
  let md1 ← deleteManagedMeta md
  let md2 := stripMetaAnnot md1
  let copy1 := copy.setField "metadata" md2
  return copy1.removeField "status"

/-- `createRemoteRef(dataItem)` from the source: always sets `key` (to
`dataItem.key`, possibly `undefined`), then the first truthy of
`version`, `versionId`, `versionStage` as `version` (omitted when all
are falsy), then `property` when truthy. -/
def createRemoteRef (dataItem : JVal) : Except JsError JVal := do
  let key ← dataItem.getF "key"
  let remoteRef := JVal.obj [("key", key)]
  let v1 ← dataItem.getF "version"
  let v2 ← dataItem.getF "versionId"
  let v3 ← dataItem.getF "versionStage"
  let version := jsOr (jsOr v1 v2) v3
  let remoteRef := if version.truthy then remoteRef.setField "version" version else remoteRef
  let p ← dataItem.getF "property"
  let remoteRef := if p.truthy then remoteRef.setField "property" p else remoteRef
  return remoteRef

/-- `convertData(kesData)`: `.map` exists on arrays only (a truthy
non-array reaching this point throws `TypeError`); each element becomes
`{secretKey: element.name, remoteRef: createRemoteRef(element)}`. -/
def convertData (kesData : JVal) : Except JsError JVal :=
  match kesData with
  | .arr xs => do
    let ys ← exMapM (fun d => do
      let nm ← d.getF "name"
      let rr ← createRemoteRef d
      return JVal.obj [("secretKey", nm), ("remoteRef", rr)]) xs
    return .arr ys
  | _ => .error .typeError

/-- `convertDataFrom(kesDataFrom)`: each element — whatever it is — is
wrapped as `{key: element}` and passed to `createRemoteRef`. -/
def convertDataFrom (kesDataFrom : JVal) : Except JsError JVal :=
  match kesDataFrom with
  | .arr xs => do
    let ys ← exMapM (fun dataFromItem => createRemoteRef (JVal.obj [("key", dataFromItem)])) xs
    return .arr ys
  | _ => .error .typeError

/-- `if (kes.spec.<key>) { eso.spec.<key> = convert(kes.spec.<key>); }`:
when the legacy field is truthy, run the conversion and assign the
result into the spec being built; otherwise leave the spec alone. -/
def addConverted (spc : JVal) (key : String) (v : JVal)
    (convert : JVal → Except JsError JVal) : Except JsError JVal :=
  if v.truthy then do
    let cv ← convert v
    return spc.setField key cv
  else return spc

/-- The `kes => eso` map of the source: fixed `apiVersion`/`kind`, the
cleaned metadata, and a spec holding `refreshInterval`,
`secretStoreRef` and the optional `target.template`/`data`/`dataFrom`
conversions (fields in insertion order). -/
def kesToEso (refreshInterval : String) (cluster : Bool) (kes : JVal) :
    Except JsError JVal := do
  let md ← kes.getF "metadata"
  let spec ← kes.getF "spec"
  let backendType ← spec.getF "backendType"
  let esoSpec := JVal.obj
    [("refreshInterval", .str refreshInterval),
     ("secretStoreRef", .obj
       [("name", backendType),
        ("kind", .str (if cluster then "ClusterSecretStore" else "SecretStore"))])]
  let tmpl ← spec.getF "template"
  let esoSpec := if tmpl.truthy then esoSpec.setField "target" (.obj [("template", tmpl)]) else esoSpec
  let dataV ← spec.getF "data"
  let esoSpec ← addConverted esoSpec "data" dataV convertData
  let dataFromV ← spec.getF "dataFrom"
  let esoSpec ← addConverted esoSpec "dataFrom" dataFromV convertDataFrom
  return JVal.obj
    [("apiVersion", .str "external-secrets.io/v1alpha1"),
     ("kind", .str "ExternalSecret"),
     ("metadata", md),
     ("spec", esoSpec)]

/-- The inner `flatMap` callback: `parsed.items` (throws on a nullish
document); `Array.prototype.flatMap` splices a returned array one
level and includes any other return value as a single candidate — so a
truthy `items` array is spliced, and a document that is *itself* an
array (a top-level YAML sequence, which has no `items` property) is
returned and spliced into its elements as well. -/
def flattenDoc (parsed : JVal) : Except JsError (List JVal) := do
  let items ← parsed.getF "items"
  if items.truthy then
    match items with
    | .arr xs => return xs
    | v => return [v]
  else
    match parsed with
    | .arr xs => return xs
    | _ => return [parsed]

/-- `paths.flatMap(path => documents.flatMap(...))`: the input is the
parsed document list of each resolved file, in file order. -/
def flattenFiles (files : List (List JVal)) : Except JsError (List JVal) :=
  exFlatMapM (fun documents => exFlatMapM flattenDoc documents) files

/-- One requested filesystem write: the directory handed to
`mkdirp.sync`, the full output path, its components, and the resource
serialized there (YAML serialization is a black-box codec, so the
content is kept as the tree itself). -/
structure Write where
  ns : String
  fileName : String
  dir : String
  path : String
  content : JVal

/-- `path.resolve` coerces each segment: a non-string segment makes it
throw a `TypeError`. -/
def asPathSegment (v : JVal) : Except JsError String :=
  match v with
  | .str s => .ok s
  | _ => .error .typeError

/-- The body of `esoSecrets.forEach`: namespace is
`esoSecret.metadata.namespace || 'default'` (a truthy non-string
namespace makes `path.resolve` throw), the file name is the template
literal `\x24{esoSecret.metadata.name}.yaml`, and the path joins the
output directory, namespace and file name. -/
def writeFor (out : String) (esoSecret : JVal) : Except JsError Write := do
  let md ← esoSecret.getF "metadata"
  let nsRaw ← md.getF "namespace"
  let ns ← asPathSegment (jsOr nsRaw (.str "default"))
  let nm ← md.getF "name"
  let fileName := jsToString nm ++ ".yaml"
  let dir := out ++ "/" ++ ns
  return { ns := ns, fileName := fileName, dir := dir,
           path := dir ++ "/" ++ fileName, content := esoSecret }

/-- The `forEach` loop issuing the writes in list order. -/
def emitWrites (out : String) (esoSecrets : List JVal) : Except JsError (List Write) :=
  exMapM (writeFor out) esoSecrets

/-- The filesystem contents after replaying a list of writes in order:
each write overwrites whatever was previously at its path. -/
def fsAfter (ws : List Write) (p : String) : Option JVal :=
  ws.foldl (fun acc w => if w.path = p then some w.content else acc) none

/-- The parsed command-line configuration. -/
structure Flags where
  refreshInterval : String
  cluster : Bool
  out : String

/-- The observable outcome of a run that did not abort on a thrown
error: diagnostics printed, whether the no-convertible-secrets warning
fired, the process exit code, and the writes performed (empty when the
run exited early with code 1). -/
structure RunResult where
  diags : List Diag
  warned : Bool
  exitCode : Nat
  writes : List Write

/-- The whole pipeline of the source's main function, starting from the
parsed documents of each resolved input file: flatten, filter, clean,
transform; then either warn-and-exit-1 when nothing survived, or write
every converted resource and exit 0. -/
def runPipeline (flags : Flags) (files : List (List JVal)) :
    Except JsError RunResult := do
  let candidates ← flattenFiles files
  let (kept, diags) ← filterCandidates candidates
  let cleaned ← exMapM cleanKesItem kept
  let esoSecrets ← exMapM (kesToEso flags.refreshInterval flags.cluster) cleaned
  if esoSecrets.length = 0 then
    return { diags := diags, warned := true, exitCode := 1, writes := [] }
  else
    let ws ← emitWrites flags.out esoSecrets
    return { diags := diags, warned := false, exitCode := 0, writes := ws }

/-- Modelled from the spec (§4.1 Parsing & flattening), for comparison
with the code's `flattenFiles`: a document with an `items` sequence
contributes the elements of that sequence, any other document
contributes itself, preserving file order, in-file document order and
in-list element order. -/
def specExpand (d : JVal) : List JVal :=
  match d.jGet "items" with
  | .arr xs => xs
  | _ => [d]

/-- Modelled from the spec: the flat candidate sequence across all
files. -/
def flattenSpec (files : List (List JVal)) : List JVal :=
  (files.map (fun documents => (documents.map specExpand).flatten)).flatten

/-- Modelled from the spec (§4.1 Remote-reference construction): the
first non-empty (truthy) value among `version`, `versionId`,
`versionStage` of a data item, in that precedence order. -/
def specFirstVersion (d : JVal) : Option JVal :=
  if (d.jGet "version").truthy then some (d.jGet "version")
  else if (d.jGet "versionId").truthy then some (d.jGet "versionId")
  else if (d.jGet "versionStage").truthy then some (d.jGet "versionStage")
  else none

/-! ## General lemmas about the value model -/

@[simp] theorem exBind_ok {α β : Type} (a : α) (f : α → Except JsError β) :
    (Except.ok a : Except JsError α) >>= f = f a := rfl

@[simp] theorem exBind_error {α β : Type} (e : JsError) (f : α → Except JsError β) :
    (Except.error e : Except JsError α) >>= f = .error e := rfl

@[simp] theorem exPure_eq_ok {α : Type} (a : α) :
    (pure a : Except JsError α) = .ok a := rfl

theorem exBind_eq_ok {α β : Type} {e : Except JsError α} {f : α → Except JsError β}
    {b : β} : e >>= f = .ok b ↔ ∃ a, e = .ok a ∧ f a = .ok b := by
  cases e <;> simp

@[simp] theorem lookupField_nil (k : String) : lookupField [] k = none := rfl

theorem lookupField_cons (k1 : String) (v1 : JVal) (rest : List (String × JVal))
    (k : String) :
    lookupField ((k1, v1) :: rest) k = if k1 = k then some v1 else lookupField rest k := by
  by_cases h : k1 = k <;> simp [lookupField, h]

theorem setInList_cons (k1 : String) (v1 : JVal) (rest : List (String × JVal))
    (k : String) (v : JVal) :
    setInList ((k1, v1) :: rest) k v =
      if k1 = k then (k, v) :: rest else (k1, v1) :: setInList rest k v := by
  by_cases h : k1 = k <;> simp [setInList, h]

theorem lookup_setInList (fs : List (String × JVal)) (k : String) (v : JVal)
    (k' : String) :
    lookupField (setInList fs k v) k' = if k' = k then some v else lookupField fs k' := by
  induction fs with
  | nil =>
    rw [setInList, lookupField_cons]
    by_cases h : k' = k
    · subst h; simp
    · rw [if_neg (fun hh => h hh.symm), if_neg h, lookupField_nil]
  | cons p rest ih =>
    obtain ⟨k1, v1⟩ := p
    rw [setInList_cons]
    by_cases h1 : k1 = k
    · subst h1
      rw [if_pos rfl, lookupField_cons, lookupField_cons]
      by_cases h2 : k1 = k'
      · subst h2; simp
      · rw [if_neg h2, if_neg h2, if_neg (fun hh => h2 hh.symm)]
    · rw [if_neg h1, lookupField_cons, lookupField_cons]
      by_cases h2 : k1 = k'
      · subst h2
        rw [if_pos rfl, if_pos rfl, if_neg h1]
      · rw [if_neg h2, if_neg h2, ih]

theorem jGet_setField_obj (fs : List (String × JVal)) (k : String) (v : JVal)
    (k' : String) :
    (JVal.setField (.obj fs) k v).jGet k' =
      if k' = k then v else (JVal.obj fs).jGet k' := by
  simp only [JVal.setField, JVal.jGet, lookup_setInList]
  by_cases h : k' = k <;> simp [h]

theorem exMapM_eq_ok_cons {α β : Type} {f : α → Except JsError β} {a : α}
    {as : List α} {bs : List β} :
    exMapM f (a :: as) = .ok bs ↔
      ∃ b bs', f a = .ok b ∧ exMapM f as = .ok bs' ∧ bs = b :: bs' := by
  simp only [exMapM, exBind_eq_ok]
  constructor
  · rintro ⟨b, hb, bs', hbs', h⟩
    exact ⟨b, bs', hb, hbs', by simpa [eq_comm] using h⟩
  · rintro ⟨b, bs', hb, hbs', rfl⟩
    exact ⟨b, hb, bs', hbs', rfl⟩

theorem exMapM_length {α β : Type} {f : α → Except JsError β} {as : List α}
    {bs : List β} (h : exMapM f as = .ok bs) : bs.length = as.length := by
  induction as generalizing bs with
  | nil => simp [exMapM] at h; simp [← h]
  | cons a as ih =>
    rw [exMapM_eq_ok_cons] at h
    obtain ⟨b, bs', _, hbs', rfl⟩ := h
    simp [ih hbs']

/-! ## C5: remote-reference construction -/

/-- On a non-nullish source object no property read throws, and
`createRemoteRef` reduces to the pure construction (four possible
shapes, by truthiness of the version chain and of `property`). -/
theorem createRemoteRef_eval (d : JVal) (h : d.nullish = false) :
    createRemoteRef d = .ok
      (if (jsOr (jsOr (d.jGet "version") (d.jGet "versionId")) (d.jGet "versionStage")).truthy then
        (if (d.jGet "property").truthy then
          JVal.obj [("key", d.jGet "key"),
            ("version", jsOr (jsOr (d.jGet "version") (d.jGet "versionId")) (d.jGet "versionStage")),
            ("property", d.jGet "property")]
        else
          JVal.obj [("key", d.jGet "key"),
            ("version", jsOr (jsOr (d.jGet "version") (d.jGet "versionId")) (d.jGet "versionStage"))])
      else
        (if (d.jGet "property").truthy then
          JVal.obj [("key", d.jGet "key"), ("property", d.jGet "property")]
        else
          JVal.obj [("key", d.jGet "key")])) := by
  simp only [createRemoteRef, JVal.getF, h, Bool.false_eq_true, if_false, exBind_ok]
  split_ifs <;> rfl

/-- The spec's first-truthy precedence equals the code's chained `||`. -/
theorem specFirstVersion_jsOr (d : JVal) :
    specFirstVersion d =
      (if (jsOr (jsOr (d.jGet "version") (d.jGet "versionId")) (d.jGet "versionStage")).truthy then
        some (jsOr (jsOr (d.jGet "version") (d.jGet "versionId")) (d.jGet "versionStage"))
      else none) := by
  simp only [specFirstVersion, jsOr]
  split_ifs <;> simp_all

/-- C5 (amended): for every non-nullish remote-reference source object,
the constructed reference's `version` field equals the first truthy
(non-empty) value among the source's `version`, `versionId`,
`versionStage` in that precedence order and is omitted entirely when
none is truthy; the `property` field equals the source's `property`
when that is truthy (present and non-empty) and is omitted otherwise;
and a missing `key` is not validated or rejected — the reference is
still produced, with its `key` field bound to `undefined`. -/
theorem createRemoteRef_spec (d : JVal) (h : d.nullish = false) :
    ∃ r, createRemoteRef d = .ok r ∧
      r.hasField "key" = true ∧
      r.jGet "key" = d.jGet "key" ∧
      (∀ v, specFirstVersion d = some v → r.jGet "version" = v ∧ r.hasField "version" = true) ∧
      (specFirstVersion d = none → r.hasField "version" = false) ∧
      ((d.jGet "property").truthy = true → r.jGet "property" = d.jGet "property") ∧
      ((d.jGet "property").truthy = false → r.hasField "property" = false) := by
  rw [createRemoteRef_eval d h]
  have hfv := specFirstVersion_jsOr d
  by_cases hv : (jsOr (jsOr (d.jGet "version") (d.jGet "versionId")) (d.jGet "versionStage")).truthy = true <;>
    by_cases hp : (d.jGet "property").truthy = true
  · rw [if_pos hv, if_pos hp]
    rw [if_pos hv] at hfv
    refine ⟨_, rfl, rfl, rfl, ?_, ?_, fun _ => rfl, fun hc => absurd hp (by simp [hc])⟩
    · intro v hsome
      rw [hfv] at hsome
      injection hsome with hv2
      subst hv2
      exact ⟨rfl, rfl⟩
    · intro hnone; rw [hfv] at hnone; cases hnone
  · rw [if_pos hv, if_neg (by simp [hp])]
    rw [if_pos hv] at hfv
    refine ⟨_, rfl, rfl, rfl, ?_, ?_, fun hc => absurd hc (by simp [hp]), fun _ => rfl⟩
    · intro v hsome
      rw [hfv] at hsome
      injection hsome with hv2
      subst hv2
      exact ⟨rfl, rfl⟩
    · intro hnone; rw [hfv] at hnone; cases hnone
  · rw [if_neg (by simp [hv]), if_pos hp]
    rw [if_neg (by simp [hv])] at hfv
    refine ⟨_, rfl, rfl, rfl, ?_, fun _ => rfl, fun _ => rfl,
      fun hc => absurd hp (by simp [hc])⟩
    intro v hsome
    rw [hfv] at hsome; cases hsome
  · rw [if_neg (by simp [hv]), if_neg (by simp [hp])]
    rw [if_neg (by simp [hv])] at hfv
    refine ⟨_, rfl, rfl, rfl, ?_, fun _ => rfl, fun hc => absurd hc (by simp [hp]),
      fun _ => rfl⟩
    intro v hsome
    rw [hfv] at hsome; cases hsome

/-- C5 witness: concrete application with only `versionId` set — the
reference's `version` equals `versionId` — and a truthy `property`. -/
theorem createRemoteRef_spec_witness :
    ∃ r, createRemoteRef (.obj [("key", .str "k"), ("versionId", .str "v2"), ("property", .str "p")]) = .ok r ∧
      r.hasField "key" = true ∧
      r.jGet "key" = (JVal.obj [("key", .str "k"), ("versionId", .str "v2"), ("property", .str "p")]).jGet "key" ∧
      (∀ v, specFirstVersion (.obj [("key", .str "k"), ("versionId", .str "v2"), ("property", .str "p")]) = some v →
        r.jGet "version" = v ∧ r.hasField "version" = true) ∧
      (specFirstVersion (.obj [("key", .str "k"), ("versionId", .str "v2"), ("property", .str "p")]) = none →
        r.hasField "version" = false) ∧
      (((JVal.obj [("key", .str "k"), ("versionId", .str "v2"), ("property", .str "p")]).jGet "property").truthy = true →
        r.jGet "property" = (JVal.obj [("key", .str "k"), ("versionId", .str "v2"), ("property", .str "p")]).jGet "property") ∧
      (((JVal.obj [("key", .str "k"), ("versionId", .str "v2"), ("property", .str "p")]).jGet "property").truthy = false →
        r.hasField "property" = false) :=
  createRemoteRef_spec (.obj [("key", .str "k"), ("versionId", .str "v2"), ("property", .str "p")]) rfl

/-- C5 counterexample: a source object whose `property` is present but
empty (`""`, falsy) — the claim says the reference's `property` equals
the source's `property` whenever present, but the code omits it. -/
theorem createRemoteRef_property_counterexample :
    (JVal.obj [("key", .str "k"), ("property", .str "")]).hasField "property" = true ∧
    createRemoteRef (.obj [("key", .str "k"), ("property", .str "")]) = .ok (.obj [("key", .str "k")]) ∧
    (JVal.obj [("key", .str "k")]).hasField "property" = false :=
  ⟨rfl, rfl, rfl⟩

/-! ## C1: `dataFrom` conversion -/

/-- The wrapper `{key: element}` is non-nullish, so `createRemoteRef`
on it never throws; the wrapper has no `version`/`versionId`/
`versionStage`/`property` fields, so the result is exactly the
wrapper. -/
theorem createRemoteRef_wrap (x : JVal) :
    createRemoteRef (.obj [("key", x)]) = .ok (.obj [("key", x)]) := rfl

/-- C1 (amended): `convertDataFrom` maps every element — bare string or
object alike — to `createRemoteRef({key: element})`, so each produced
remote reference is exactly `{key: element}`: a bare string `s` yields
`{key: s}` with no `version` and no `property` field, and an object
element yields a reference whose `key` is the whole object (its own
`key`/`version`/`versionId`/`versionStage`/`property` fields are never
consulted). -/
theorem convertDataFrom_wraps (xs : List JVal) :
    convertDataFrom (.arr xs) = .ok (.arr (xs.map (fun x => JVal.obj [("key", x)]))) := by
  have hmap : ∀ l : List JVal,
      exMapM (fun dataFromItem => createRemoteRef (JVal.obj [("key", dataFromItem)])) l =
        .ok (l.map (fun x => JVal.obj [("key", x)])) := by
    intro l
    induction l with
    | nil => rfl
    | cons x rest ih =>
      have hstep : exMapM (fun dataFromItem => createRemoteRef (JVal.obj [("key", dataFromItem)])) (x :: rest) =
          (createRemoteRef (JVal.obj [("key", x)]) >>= fun b =>
            exMapM (fun dataFromItem => createRemoteRef (JVal.obj [("key", dataFromItem)])) rest >>=
              fun bs => pure (b :: bs)) := rfl
      rw [hstep, createRemoteRef_wrap, exBind_ok, ih, exBind_ok]
      rfl
  simp only [convertDataFrom, hmap, exBind_ok]
  rfl

/-- C1 counterexample: a `dataFrom` element that is already an object
with its own `key` and `version`.  The claim says the reference is
built directly from those fields (`{key: "a", version: "v"}`); the code
instead produces a reference whose `key` is the whole object and which
has no `version` field. -/
theorem convertDataFrom_object_counterexample :
    convertDataFrom (.arr [.obj [("key", .str "a"), ("version", .str "v")]]) =
      .ok (.arr [.obj [("key", .obj [("key", .str "a"), ("version", .str "v")])]]) ∧
    (JVal.obj [("key", .obj [("key", .str "a"), ("version", .str "v")])]).jGet "key" ≠ .str "a" ∧
    (JVal.obj [("key", .obj [("key", .str "a"), ("version", .str "v")])]).hasField "version" = false := by
  refine ⟨rfl, ?_, rfl⟩
  intro hc
  simp [JVal.jGet, lookupField] at hc

/-! ## C6: the KES → ESO transformation -/

theorem getF_eq_ok {v : JVal} {k : String} {w : JVal} :
    v.getF k = .ok w ↔ v.nullish = false ∧ w = v.jGet k := by
  unfold JVal.getF
  cases hn : v.nullish <;> simp [eq_comm]

theorem setInList_head2 (k1 k2 k : String) (v1 v2 v : JVal)
    (tail : List (String × JVal)) (h1 : k1 ≠ k) (h2 : k2 ≠ k) :
    setInList ((k1, v1) :: (k2, v2) :: tail) k v =
      (k1, v1) :: (k2, v2) :: setInList tail k v := by
  rw [setInList_cons, if_neg h1, setInList_cons, if_neg h2]

/-- An optional `eso.spec.<key> = <converted>` update keeps the two
leading spec fields (`refreshInterval`, `secretStoreRef`) intact. -/
theorem addConverted_shape (p1 p2 : String × JVal) (tailIn : List (String × JVal))
    (key : String) (v : JVal) (convert : JVal → Except JsError JVal) (out : JVal)
    (hk1 : p1.1 ≠ key) (hk2 : p2.1 ≠ key)
    (hco : addConverted (JVal.obj (p1 :: p2 :: tailIn)) key v convert = .ok out) :
    ∃ tail, out = JVal.obj (p1 :: p2 :: tail) := by
  obtain ⟨k1, v1⟩ := p1
  obtain ⟨k2, v2⟩ := p2
  unfold addConverted at hco
  split_ifs at hco
  · rw [exBind_eq_ok] at hco
    obtain ⟨cv, -, hco⟩ := hco
    simp only [exPure_eq_ok, Except.ok.injEq] at hco
    subst hco
    exact ⟨setInList tailIn key cv, by
      simp only [JVal.setField, setInList_head2 _ _ _ _ _ _ _ hk1 hk2]⟩
  · simp only [exPure_eq_ok, Except.ok.injEq] at hco
    subst hco
    exact ⟨tailIn, rfl⟩

/-- Whenever the transformation succeeds, the produced resource has
exactly the shape built at the end of the `kes => eso` map: fixed
`apiVersion`/`kind`, the input's `metadata`, and a spec starting with
`refreshInterval` and `secretStoreRef` followed by the optional
fields. -/
theorem kesToEso_shape (ri : String) (cl : Bool) (kes eso : JVal)
    (h : kesToEso ri cl kes = .ok eso) :
    kes.nullish = false ∧ (kes.jGet "spec").nullish = false ∧
    ∃ tail, eso = JVal.obj
      [("apiVersion", .str "external-secrets.io/v1alpha1"),
       ("kind", .str "ExternalSecret"),
       ("metadata", kes.jGet "metadata"),
       ("spec", JVal.obj (("refreshInterval", .str ri) ::
         ("secretStoreRef", .obj
           [("name", (kes.jGet "spec").jGet "backendType"),
            ("kind", .str (if cl then "ClusterSecretStore" else "SecretStore"))]) :: tail))] := by
  simp only [kesToEso] at h
  rw [exBind_eq_ok] at h
  obtain ⟨md, hmd, h⟩ := h
  rw [exBind_eq_ok] at h
  obtain ⟨spec, hspec, h⟩ := h
  rw [exBind_eq_ok] at h
  obtain ⟨backendType, hbt, h⟩ := h
  rw [exBind_eq_ok] at h
  obtain ⟨tmpl, htmpl, h⟩ := h
  rw [exBind_eq_ok] at h
  obtain ⟨dataV, hdataV, h⟩ := h
  rw [exBind_eq_ok] at h
  obtain ⟨spec1, hspec1, h⟩ := h
  rw [exBind_eq_ok] at h
  obtain ⟨dataFromV, hdataFromV, h⟩ := h
  rw [exBind_eq_ok] at h
  obtain ⟨spec2, hspec2, h⟩ := h
  obtain ⟨hkn, hmdv⟩ := getF_eq_ok.mp hmd
  obtain ⟨-, hspecv⟩ := getF_eq_ok.mp hspec
  obtain ⟨hsn, hbtv⟩ := getF_eq_ok.mp hbt
  subst hmdv hspecv hbtv
  refine ⟨hkn, hsn, ?_⟩
  simp only [exPure_eq_ok, Except.ok.injEq] at h
  subst h
  -- track the spec object through the three optional updates
  have base : ∃ tail, (if tmpl.truthy = true then
      JVal.setField (JVal.obj
        [("refreshInterval", JVal.str ri),
         ("secretStoreRef", JVal.obj
           [("name", (kes.jGet "spec").jGet "backendType"),
            ("kind", JVal.str (if cl then "ClusterSecretStore" else "SecretStore"))])])
        "target" (JVal.obj [("template", tmpl)])
    else JVal.obj
        [("refreshInterval", JVal.str ri),
         ("secretStoreRef", JVal.obj
           [("name", (kes.jGet "spec").jGet "backendType"),
            ("kind", JVal.str (if cl then "ClusterSecretStore" else "SecretStore"))])]) =
      JVal.obj (("refreshInterval", JVal.str ri) ::
        ("secretStoreRef", JVal.obj
          [("name", (kes.jGet "spec").jGet "backendType"),
           ("kind", JVal.str (if cl then "ClusterSecretStore" else "SecretStore"))]) :: tail) := by
    by_cases ht : tmpl.truthy = true
    · rw [if_pos ht]
      exact ⟨[("target", JVal.obj [("template", tmpl)])], rfl⟩
    · rw [if_neg ht]
      exact ⟨[], rfl⟩
  obtain ⟨tail0, htail0⟩ := base
  rw [htail0] at hspec1
  obtain ⟨tail1, htail1⟩ :=
    addConverted_shape _ _ tail0 "data" dataV convertData spec1
      (show ("refreshInterval" : String) ≠ "data" by decide)
      (show ("secretStoreRef" : String) ≠ "data" by decide) hspec1
  rw [htail1] at hspec2
  obtain ⟨tail2, htail2⟩ :=
    addConverted_shape _ _ tail1 "dataFrom" dataFromV convertDataFrom spec2
      (show ("refreshInterval" : String) ≠ "dataFrom" by decide)
      (show ("secretStoreRef" : String) ≠ "dataFrom" by decide) hspec2
  exact ⟨tail2, by rw [htail2]⟩

/-- C6: every successfully transformed resource has `apiVersion`
`external-secrets.io/v1alpha1` and `kind` `ExternalSecret`,
`spec.refreshInterval` equal to the configured refresh-interval string,
`spec.secretStoreRef.name` equal to the legacy `spec.backendType`
(possibly `undefined`, which is not an error — see the witness, whose
input has no `backendType`), and `spec.secretStoreRef.kind` equal to
`ClusterSecretStore` when the cluster flag is true and `SecretStore`
when it is false. -/
theorem kesToEso_fixed_fields (ri : String) (cl : Bool) (kes eso : JVal)
    (h : kesToEso ri cl kes = .ok eso) :
    eso.jGet "apiVersion" = .str "external-secrets.io/v1alpha1" ∧
    eso.jGet "kind" = .str "ExternalSecret" ∧
    (eso.jGet "spec").jGet "refreshInterval" = .str ri ∧
    ((eso.jGet "spec").jGet "secretStoreRef").jGet "name" = (kes.jGet "spec").jGet "backendType" ∧
    ((eso.jGet "spec").jGet "secretStoreRef").jGet "kind" =
      .str (if cl then "ClusterSecretStore" else "SecretStore") := by
  obtain ⟨-, -, tail, rfl⟩ := kesToEso_shape ri cl kes eso h
  exact ⟨rfl, rfl, rfl, rfl, rfl⟩

/-- C6 witness: a concrete legacy resource (with no `backendType`, so
`secretStoreRef.name` comes out `undefined` without an error), under
the default configuration. -/
theorem kesToEso_fixed_fields_witness :
    (JVal.obj
      [("apiVersion", .str "external-secrets.io/v1alpha1"),
       ("kind", .str "ExternalSecret"),
       ("metadata", .obj [("name", .str "db-creds")]),
       ("spec", .obj
         [("refreshInterval", .str "1h"),
          ("secretStoreRef", .obj [("name", .undefined), ("kind", .str "SecretStore")])])]).jGet "apiVersion" =
        .str "external-secrets.io/v1alpha1" ∧
    (JVal.obj
      [("apiVersion", .str "external-secrets.io/v1alpha1"),
       ("kind", .str "ExternalSecret"),
       ("metadata", .obj [("name", .str "db-creds")]),
       ("spec", .obj
         [("refreshInterval", .str "1h"),
          ("secretStoreRef", .obj [("name", .undefined), ("kind", .str "SecretStore")])])]).jGet "kind" =
        .str "ExternalSecret" ∧
    ((JVal.obj
      [("apiVersion", .str "external-secrets.io/v1alpha1"),
       ("kind", .str "ExternalSecret"),
       ("metadata", .obj [("name", .str "db-creds")]),
       ("spec", .obj
         [("refreshInterval", .str "1h"),
          ("secretStoreRef", .obj [("name", .undefined), ("kind", .str "SecretStore")])])]).jGet "spec").jGet "refreshInterval" =
        .str "1h" ∧
    (((JVal.obj
      [("apiVersion", .str "external-secrets.io/v1alpha1"),
       ("kind", .str "ExternalSecret"),
       ("metadata", .obj [("name", .str "db-creds")]),
       ("spec", .obj
         [("refreshInterval", .str "1h"),
          ("secretStoreRef", .obj [("name", .undefined), ("kind", .str "SecretStore")])])]).jGet "spec").jGet "secretStoreRef").jGet "name" =
        ((JVal.obj
          [("apiVersion", .str "kubernetes-client.io/v1"),
           ("kind", .str "ExternalSecret"),
           ("metadata", .obj [("name", .str "db-creds")]),
           ("spec", .obj [])]).jGet "spec").jGet "backendType" ∧
    (((JVal.obj
      [("apiVersion", .str "external-secrets.io/v1alpha1"),
       ("kind", .str "ExternalSecret"),
       ("metadata", .obj [("name", .str "db-creds")]),
       ("spec", .obj
         [("refreshInterval", .str "1h"),
          ("secretStoreRef", .obj [("name", .undefined), ("kind", .str "SecretStore")])])]).jGet "spec").jGet "secretStoreRef").jGet "kind" =
        .str (if false then "ClusterSecretStore" else "SecretStore") :=
  kesToEso_fixed_fields "1h" false
    (.obj
      [("apiVersion", .str "kubernetes-client.io/v1"),
       ("kind", .str "ExternalSecret"),
       ("metadata", .obj [("name", .str "db-creds")]),
       ("spec", .obj [])]) _ rfl

/-! ## C3: cleaning -/

mutual
theorem jsonRound_self : ∀ v : JVal, noUndefined v = true → jsonRound v = v
  | .undefined, h => by simp [noUndefined] at h
  | .null, _ => rfl
  | .bool _, _ => rfl
  | .num _, _ => rfl
  | .str _, _ => rfl
  | .arr xs, h => by
    rw [jsonRound, jsonRoundArr_self xs (by simpa [noUndefined] using h)]
  | .obj fs, h => by
    rw [jsonRound, jsonRoundObj_self fs (by simpa [noUndefined] using h)]

theorem jsonRoundArr_self : ∀ xs : List JVal, noUndefArr xs = true → jsonRoundArr xs = xs
  | [], _ => rfl
  | x :: rest, h => by
    simp only [noUndefArr, Bool.and_eq_true] at h
    obtain ⟨h1, h2⟩ := h
    have hr := jsonRoundArr_self rest h2
    have hx := jsonRound_self x h1
    cases x <;> simp_all [jsonRoundArr, noUndefined]

theorem jsonRoundObj_self : ∀ fs : List (String × JVal), noUndefObj fs = true → jsonRoundObj fs = fs
  | [], _ => rfl
  | (k, v) :: rest, h => by
    simp only [noUndefObj, Bool.and_eq_true] at h
    obtain ⟨h1, h2⟩ := h
    have hr := jsonRoundObj_self rest h2
    have hv := jsonRound_self v h1
    cases v <;> simp_all [jsonRoundObj, noUndefined]
end

theorem lookup_removeKey (gs : List (String × JVal)) (k k' : String) :
    lookupField (gs.filter (fun p => !(p.1 == k))) k' =
      if k' = k then none else lookupField gs k' := by
  induction gs with
  | nil => by_cases h : k' = k <;> simp [h]
  | cons p rest ih =>
    obtain ⟨k1, v1⟩ := p
    rw [List.filter_cons]
    by_cases h1 : k1 = k
    · subst h1
      rw [if_neg (by simp), ih, lookupField_cons]
      by_cases h2 : k' = k1
      · simp [h2]
      · rw [if_neg h2, if_neg h2, if_neg (fun hh => h2 hh.symm)]
    · rw [if_pos (by simp [h1]), lookupField_cons, ih, lookupField_cons]
      by_cases h2 : k1 = k'
      · subst h2
        rw [if_pos rfl, if_neg h1, if_pos rfl]
      · rw [if_neg h2, if_neg h2]

theorem lookup_strip_of_stripped (gs : List (String × JVal)) (k : String)
    (hk : strippedMetaKeys.contains k = true) :
    lookupField (stripMetaFields gs) k = none := by
  induction gs with
  | nil => rfl
  | cons p rest ih =>
    obtain ⟨k1, v1⟩ := p
    unfold stripMetaFields at ih ⊢
    rw [List.filter_cons]
    cases h1 : strippedMetaKeys.contains k1 with
    | true =>
      rw [if_neg (by simp)]
      exact ih
    | false =>
      rw [if_pos (by simp : ((!false) = true)), lookupField_cons]
      have hne : k1 ≠ k := fun hh => by rw [hh, hk] at h1; cases h1
      rw [if_neg hne]
      exact ih

theorem lookup_strip_of_kept (gs : List (String × JVal)) (k : String)
    (hk : strippedMetaKeys.contains k = false) :
    lookupField (stripMetaFields gs) k = lookupField gs k := by
  induction gs with
  | nil => rfl
  | cons p rest ih =>
    obtain ⟨k1, v1⟩ := p
    unfold stripMetaFields at ih ⊢
    rw [List.filter_cons]
    cases h1 : strippedMetaKeys.contains k1 with
    | true =>
      have hne : k1 ≠ k := fun hh => by rw [hh, hk] at h1; cases h1
      rw [if_neg (by simp), ih, lookupField_cons, if_neg hne]
    | false =>
      rw [if_pos (by simp : ((!false) = true)), lookupField_cons, lookupField_cons, ih]

theorem lookup_stripAnnotMap (gs : List (String × JVal)) (k : String) :
    lookupField (gs.map (fun p => if p.1 == "annotations" then (p.1, stripLastApplied p.2) else p)) k =
      (lookupField gs k).map (fun v => if k = "annotations" then stripLastApplied v else v) := by
  induction gs with
  | nil => simp
  | cons p rest ih =>
    obtain ⟨k1, v1⟩ := p
    rw [List.map_cons]
    by_cases h1 : k1 = "annotations"
    · subst h1
      simp only [beq_self_eq_true, if_true]
      rw [lookupField_cons, lookupField_cons]
      by_cases h2 : k = "annotations"
      · subst h2
        rw [if_pos rfl, if_pos rfl]
        simp
      · rw [if_neg (fun hh => h2 hh.symm), if_neg (fun hh => h2 hh.symm), ih]
    · simp only [(by simpa using h1 : (k1 == "annotations") = false), Bool.false_eq_true,
        if_false]
      rw [lookupField_cons, lookupField_cons]
      by_cases h2 : k1 = k
      · subst h2
        rw [if_pos rfl, if_pos rfl]
        simp [h1]
      · rw [if_neg h2, if_neg h2, ih]

theorem cleanKesItem_eval (fs mfs : List (String × JVal))
    (hno : noUndefined (JVal.obj fs) = true)
    (hmd : lookupField fs "metadata" = some (JVal.obj mfs)) :
    cleanKesItem (.obj fs) = .ok
      (((JVal.obj fs).setField "metadata"
        (stripMetaAnnot (.obj (stripMetaFields mfs)))).removeField "status") := by
  simp only [cleanKesItem, jsonRound_self _ hno, JVal.getF, JVal.nullish, JVal.jGet, hmd,
    Option.getD_some, Bool.false_eq_true, if_false, exBind_ok, deleteManagedMeta,
    exPure_eq_ok]

theorem stripLastApplied_no_la (a : JVal) :
    (stripLastApplied a).hasField "kubectl.kubernetes.io/last-applied-configuration" = false := by
  cases a <;> simp only [stripLastApplied, JVal.hasField]
  rw [lookup_removeKey]
  simp

theorem stripLastApplied_jGet_ne (a : JVal) (k : String)
    (h : k ≠ "kubectl.kubernetes.io/last-applied-configuration") :
    (stripLastApplied a).jGet k = a.jGet k := by
  cases a <;> simp only [stripLastApplied, JVal.jGet]
  rw [lookup_removeKey, if_neg h]

/-- C3 (amended): for every eligible candidate (an object with an
object `metadata` and no `undefined` inside, as every YAML-parsed
document is), cleaning produces a deep copy in which the five
server-managed keys are removed *as direct fields of `metadata`*, the
single annotation key `kubectl.kubernetes.io/last-applied-configuration`
is removed (other annotation keys retained), the top-level `status` is
removed, and every other field of the item and of its metadata is left
as it was — but keys named `creationTimestamp`/`generation`/
`resourceVersion`/`uid`/`selfLink` occurring *inside nested maps* under
`metadata` (e.g. in `labels`) are retained, contrary to the claim's
"anywhere under metadata" (see the counterexample).  The embedding is a
pure function, so the original parsed tree is unchanged by
construction. -/
theorem cleanKesItem_spec (fs mfs : List (String × JVal))
    (hno : noUndefined (JVal.obj fs) = true)
    (hmd : lookupField fs "metadata" = some (JVal.obj mfs)) :
    ∃ c, cleanKesItem (.obj fs) = .ok c ∧
      c.hasField "status" = false ∧
      (∀ k, strippedMetaKeys.contains k = true → (c.jGet "metadata").hasField k = false) ∧
      ((c.jGet "metadata").jGet "annotations" =
        stripLastApplied ((JVal.obj mfs).jGet "annotations")) ∧
      ((c.jGet "metadata").jGet "annotations").hasField
        "kubectl.kubernetes.io/last-applied-configuration" = false ∧
      (∀ k, k ≠ "kubectl.kubernetes.io/last-applied-configuration" →
        ((c.jGet "metadata").jGet "annotations").jGet k =
          (((JVal.obj mfs).jGet "annotations")).jGet k) ∧
      (∀ k, strippedMetaKeys.contains k = false → k ≠ "annotations" →
        (c.jGet "metadata").jGet k = (JVal.obj mfs).jGet k) ∧
      (c.jGet "metadata").jGet "name" = (JVal.obj mfs).jGet "name" ∧
      (∀ k, k ≠ "metadata" → k ≠ "status" → c.jGet k = (JVal.obj fs).jGet k) := by
  refine ⟨_, cleanKesItem_eval fs mfs hno hmd, ?_⟩
  have hmdv : ((((JVal.obj fs).setField "metadata"
      (stripMetaAnnot (.obj (stripMetaFields mfs)))).removeField "status").jGet "metadata") =
      stripMetaAnnot (.obj (stripMetaFields mfs)) := by
    simp only [JVal.setField, JVal.removeField, JVal.jGet]
    rw [lookup_removeKey, if_neg (show ("metadata" : String) ≠ "status" by decide),
      lookup_setInList, if_pos rfl, Option.getD_some]
  have hannv : (stripMetaAnnot (.obj (stripMetaFields mfs))).jGet "annotations" =
      stripLastApplied ((JVal.obj mfs).jGet "annotations") := by
    simp only [stripMetaAnnot, JVal.jGet]
    rw [lookup_stripAnnotMap, lookup_strip_of_kept _ _ (by decide)]
    cases hl : lookupField mfs "annotations" <;> simp [hl, stripLastApplied]
  refine ⟨?_, ?_, ?_, ?_, ?_, ?_, ?_, ?_⟩
  · simp only [JVal.setField, JVal.removeField, JVal.hasField]
    rw [lookup_removeKey, if_pos rfl]
    rfl
  · intro k hk
    rw [hmdv]
    simp only [stripMetaAnnot, JVal.hasField]
    rw [lookup_stripAnnotMap, lookup_strip_of_stripped _ _ hk]
    rfl
  · rw [hmdv, hannv]
  · rw [hmdv, hannv]
    exact stripLastApplied_no_la _
  · intro k hk
    rw [hmdv, hannv, stripLastApplied_jGet_ne _ _ hk]
  · intro k hk hka
    rw [hmdv]
    simp only [stripMetaAnnot, JVal.jGet]
    rw [lookup_stripAnnotMap, lookup_strip_of_kept _ _ hk]
    cases hl : lookupField mfs k <;> simp [hl, hka]
  · rw [hmdv]
    simp only [stripMetaAnnot, JVal.jGet]
    rw [lookup_stripAnnotMap, lookup_strip_of_kept _ _ (by decide)]
    cases hl : lookupField mfs "name" <;> simp [hl]
  · intro k hkm hks
    simp only [JVal.setField, JVal.removeField, JVal.jGet]
    rw [lookup_removeKey, if_neg hks, lookup_setInList, if_neg hkm]


/-- C3 witness: a concrete eligible item carrying every removable field
plus extra annotations and labels. -/
theorem cleanKesItem_spec_witness :
    ∃ c, cleanKesItem (.obj [("apiVersion", JVal.str "kubernetes-client.io/v1"),
       ("metadata", JVal.obj [("name", JVal.str "x"), ("creationTimestamp", JVal.str "t"), ("uid", JVal.str "u"),
       ("annotations", JVal.obj
         [("kubectl.kubernetes.io/last-applied-configuration", JVal.str "big"),
          ("keep", JVal.str "y")]),
       ("labels", JVal.obj [("app", JVal.str "z")])]),
       ("spec", JVal.obj []),
       ("status", JVal.obj [("ok", JVal.bool true)])]) = .ok c ∧
      c.hasField "status" = false ∧
      (∀ k, strippedMetaKeys.contains k = true → (c.jGet "metadata").hasField k = false) ∧
      ((c.jGet "metadata").jGet "annotations" =
        stripLastApplied ((JVal.obj [("name", JVal.str "x"), ("creationTimestamp", JVal.str "t"), ("uid", JVal.str "u"),
       ("annotations", JVal.obj
         [("kubectl.kubernetes.io/last-applied-configuration", JVal.str "big"),
          ("keep", JVal.str "y")]),
       ("labels", JVal.obj [("app", JVal.str "z")])]).jGet "annotations")) ∧
      ((c.jGet "metadata").jGet "annotations").hasField
        "kubectl.kubernetes.io/last-applied-configuration" = false ∧
      (∀ k, k ≠ "kubectl.kubernetes.io/last-applied-configuration" →
        ((c.jGet "metadata").jGet "annotations").jGet k =
          (((JVal.obj [("name", JVal.str "x"), ("creationTimestamp", JVal.str "t"), ("uid", JVal.str "u"),
       ("annotations", JVal.obj
         [("kubectl.kubernetes.io/last-applied-configuration", JVal.str "big"),
          ("keep", JVal.str "y")]),
       ("labels", JVal.obj [("app", JVal.str "z")])]).jGet "annotations")).jGet k) ∧
      (∀ k, strippedMetaKeys.contains k = false → k ≠ "annotations" →
        (c.jGet "metadata").jGet k = (JVal.obj [("name", JVal.str "x"), ("creationTimestamp", JVal.str "t"), ("uid", JVal.str "u"),
       ("annotations", JVal.obj
         [("kubectl.kubernetes.io/last-applied-configuration", JVal.str "big"),
          ("keep", JVal.str "y")]),
       ("labels", JVal.obj [("app", JVal.str "z")])]).jGet k) ∧
      (c.jGet "metadata").jGet "name" = (JVal.obj [("name", JVal.str "x"), ("creationTimestamp", JVal.str "t"), ("uid", JVal.str "u"),
       ("annotations", JVal.obj
         [("kubectl.kubernetes.io/last-applied-configuration", JVal.str "big"),
          ("keep", JVal.str "y")]),
       ("labels", JVal.obj [("app", JVal.str "z")])]).jGet "name" ∧
      (∀ k, k ≠ "metadata" → k ≠ "status" → c.jGet k = (JVal.obj [("apiVersion", JVal.str "kubernetes-client.io/v1"),
       ("metadata", JVal.obj [("name", JVal.str "x"), ("creationTimestamp", JVal.str "t"), ("uid", JVal.str "u"),
       ("annotations", JVal.obj
         [("kubectl.kubernetes.io/last-applied-configuration", JVal.str "big"),
          ("keep", JVal.str "y")]),
       ("labels", JVal.obj [("app", JVal.str "z")])]),
       ("spec", JVal.obj []),
       ("status", JVal.obj [("ok", JVal.bool true)])]).jGet k) :=
  cleanKesItem_spec
    [("apiVersion", JVal.str "kubernetes-client.io/v1"),
       ("metadata", JVal.obj [("name", JVal.str "x"), ("creationTimestamp", JVal.str "t"), ("uid", JVal.str "u"),
       ("annotations", JVal.obj
         [("kubectl.kubernetes.io/last-applied-configuration", JVal.str "big"),
          ("keep", JVal.str "y")]),
       ("labels", JVal.obj [("app", JVal.str "z")])]),
       ("spec", JVal.obj []),
       ("status", JVal.obj [("ok", JVal.bool true)])]
    [("name", JVal.str "x"), ("creationTimestamp", JVal.str "t"), ("uid", JVal.str "u"),
       ("annotations", JVal.obj
         [("kubectl.kubernetes.io/last-applied-configuration", JVal.str "big"),
          ("keep", JVal.str "y")]),
       ("labels", JVal.obj [("app", JVal.str "z")])]
    rfl rfl

/-- C3 counterexample: a nested map under `metadata` (here `labels`)
carrying the key `uid`.  The claim says none of the five server-managed
key names appear anywhere under the produced resource's `metadata`,
nested maps included; the code only deletes direct fields of
`metadata`, so the nested `uid` survives cleaning and transformation. -/
theorem cleanKesItem_nested_counterexample :
    cleanKesItem (.obj
      [("apiVersion", .str "kubernetes-client.io/v1"),
       ("kind", .str "ExternalSecret"),
       ("metadata", .obj [("name", .str "x"), ("labels", .obj [("uid", .str "123")])]),
       ("spec", .obj [])]) = .ok (.obj
      [("apiVersion", .str "kubernetes-client.io/v1"),
       ("kind", .str "ExternalSecret"),
       ("metadata", .obj [("name", .str "x"), ("labels", .obj [("uid", .str "123")])]),
       ("spec", .obj [])]) ∧
    kesToEso "1h" false (.obj
      [("apiVersion", .str "kubernetes-client.io/v1"),
       ("kind", .str "ExternalSecret"),
       ("metadata", .obj [("name", .str "x"), ("labels", .obj [("uid", .str "123")])]),
       ("spec", .obj [])]) = .ok (.obj
      [("apiVersion", .str "external-secrets.io/v1alpha1"),
       ("kind", .str "ExternalSecret"),
       ("metadata", .obj [("name", .str "x"), ("labels", .obj [("uid", .str "123")])]),
       ("spec", .obj
         [("refreshInterval", .str "1h"),
          ("secretStoreRef", .obj [("name", .undefined), ("kind", .str "SecretStore")])])]) ∧
    containsKey ((JVal.obj
      [("apiVersion", .str "external-secrets.io/v1alpha1"),
       ("kind", .str "ExternalSecret"),
       ("metadata", .obj [("name", .str "x"), ("labels", .obj [("uid", .str "123")])]),
       ("spec", .obj
         [("refreshInterval", .str "1h"),
          ("secretStoreRef", .obj [("name", .undefined), ("kind", .str "SecretStore")])])]).jGet "metadata")
      "uid" = true :=
  ⟨rfl, rfl, rfl⟩

/-! ## C4: the eligibility filter -/

theorem strictEqStr_iff (v : JVal) (s : String) :
    strictEqStr v s = true ↔ v = .str s := by
  cases v <;> simp [strictEqStr]

theorem fail_eval_some (item : JVal) (f v : String)
    (h0 : item.nullish = false) (hm : (item.jGet "metadata").nullish = false) :
    fail item f (some v) = .ok
      (if strictEqStr (item.jGet f) v then (false, none)
       else (true, some ⟨(item.jGet "metadata").jGet "name", f, some v⟩)) := by
  simp only [fail, JVal.getF, h0, hm, Bool.false_eq_true, if_false, exBind_ok]
  split_ifs <;> rfl

theorem fail_eval_none (item : JVal) (f : String)
    (h0 : item.nullish = false) (hm : (item.jGet "metadata").nullish = false) :
    fail item f none = .ok
      (if (item.jGet f).truthy then (false, none)
       else (true, some ⟨(item.jGet "metadata").jGet "name", f, none⟩)) := by
  simp only [fail, JVal.getF, h0, hm, Bool.false_eq_true, if_false, exBind_ok]
  split_ifs <;> rfl

/-- C4 (amended): for every candidate whose `metadata.name` is
accessible (the candidate and its `metadata` are not nullish), the
eligibility check never throws; the candidate passes if and only if its
`apiVersion` is exactly the string `kubernetes-client.io/v1`, its
`kind` is exactly the string `ExternalSecret`, and its `spec` is
truthy; a passing candidate emits no diagnostic; a failing candidate
emits exactly one diagnostic naming the resource (`metadata.name`) and
the failing field — pinned to the first of the three checks to fail,
every earlier check having passed — with the expected value when the
check was an equality check; and filtering continues with the
remaining candidates.
(For a failing candidate whose `metadata` is nullish the run instead
aborts with a `TypeError` — see the counterexample.) -/
theorem checkItem_spec (item : JVal) (h0 : item.nullish = false)
    (hm : (item.jGet "metadata").nullish = false) :
    ∃ keep ds, checkItem item = .ok (keep, ds) ∧
      (keep = true ↔ (item.jGet "apiVersion" = .str "kubernetes-client.io/v1" ∧
        item.jGet "kind" = .str "ExternalSecret" ∧
        (item.jGet "spec").truthy = true)) ∧
      (keep = true → ds = []) ∧
      (keep = false → ∃ f ev, ds = [⟨(item.jGet "metadata").jGet "name", f, ev⟩] ∧
        ((f = "apiVersion" ∧ ev = some "kubernetes-client.io/v1" ∧
            item.jGet "apiVersion" ≠ .str "kubernetes-client.io/v1") ∨
         (f = "kind" ∧ ev = some "ExternalSecret" ∧
            item.jGet "apiVersion" = .str "kubernetes-client.io/v1" ∧
            item.jGet "kind" ≠ .str "ExternalSecret") ∨
         (f = "spec" ∧ ev = none ∧
            item.jGet "apiVersion" = .str "kubernetes-client.io/v1" ∧
            item.jGet "kind" = .str "ExternalSecret" ∧
            (item.jGet "spec").truthy = false))) ∧
      (∀ rest kept diags, filterCandidates rest = .ok (kept, diags) →
        filterCandidates (item :: rest) =
          .ok ((if keep then item :: kept else kept), ds ++ diags)) := by
  have e1 := fail_eval_some item "apiVersion" "kubernetes-client.io/v1" h0 hm
  have e2 := fail_eval_some item "kind" "ExternalSecret" h0 hm
  have e3 := fail_eval_none item "spec" h0 hm
  by_cases hA : strictEqStr (item.jGet "apiVersion") "kubernetes-client.io/v1" = true
  · rw [if_pos hA] at e1
    by_cases hK : strictEqStr (item.jGet "kind") "ExternalSecret" = true
    · rw [if_pos hK] at e2
      by_cases hS : (item.jGet "spec").truthy = true
      · rw [if_pos hS] at e3
        have heval : checkItem item = .ok (true, []) := by
          simp only [checkItem, e1, e2, e3, exBind_ok, Bool.false_eq_true, if_false,
            exPure_eq_ok]
        refine ⟨true, [], heval, ?_, fun _ => rfl, by simp, ?_⟩
        · simp [(strictEqStr_iff _ _).mp hA, (strictEqStr_iff _ _).mp hK, hS]
        · intro rest kept diags hrest
          simp only [filterCandidates, heval, hrest, exBind_ok, exPure_eq_ok, if_true,
            List.nil_append]
      · rw [if_neg hS] at e3
        have heval : checkItem item =
            .ok (false, [⟨(item.jGet "metadata").jGet "name", "spec", none⟩]) := by
          simp only [checkItem, e1, e2, e3, exBind_ok, Bool.false_eq_true, if_false,
            if_true, exPure_eq_ok, Option.toList_some]
        refine ⟨false, _, heval, by simp [Bool.eq_false_iff.mp (Bool.not_eq_true _ ▸ hS)], by simp, ?_, ?_⟩
        · intro _
          exact ⟨"spec", none, rfl, Or.inr (Or.inr ⟨rfl, rfl,
            (strictEqStr_iff _ _).mp hA, (strictEqStr_iff _ _).mp hK,
            Bool.not_eq_true _ ▸ hS⟩)⟩
        · intro rest kept diags hrest
          simp only [filterCandidates, heval, hrest, exBind_ok, exPure_eq_ok,
            Bool.false_eq_true, if_false, List.singleton_append]
    · rw [if_neg hK] at e2
      have heval : checkItem item =
          .ok (false, [⟨(item.jGet "metadata").jGet "name", "kind", some "ExternalSecret"⟩]) := by
        simp only [checkItem, e1, e2, exBind_ok, Bool.false_eq_true, if_false, if_true,
          exPure_eq_ok, Option.toList_some]
      have hkNe : item.jGet "kind" ≠ .str "ExternalSecret" := by
        intro hc
        exact hK ((strictEqStr_iff _ _).mpr hc)
      refine ⟨false, _, heval, by simp [hkNe], by simp, ?_, ?_⟩
      · intro _
        exact ⟨"kind", some "ExternalSecret", rfl,
          Or.inr (Or.inl ⟨rfl, rfl, (strictEqStr_iff _ _).mp hA, hkNe⟩)⟩
      · intro rest kept diags hrest
        simp only [filterCandidates, heval, hrest, exBind_ok, exPure_eq_ok,
          Bool.false_eq_true, if_false, List.singleton_append]
  · rw [if_neg hA] at e1
    have heval : checkItem item =
        .ok (false, [⟨(item.jGet "metadata").jGet "name", "apiVersion",
          some "kubernetes-client.io/v1"⟩]) := by
      simp only [checkItem, e1, exBind_ok, if_true, exPure_eq_ok, Option.toList_some]
    have haNe : item.jGet "apiVersion" ≠ .str "kubernetes-client.io/v1" := by
      intro hc
      exact hA ((strictEqStr_iff _ _).mpr hc)
    refine ⟨false, _, heval, by simp [haNe], by simp, ?_, ?_⟩
    · intro _
      exact ⟨"apiVersion", some "kubernetes-client.io/v1", rfl, Or.inl ⟨rfl, rfl, haNe⟩⟩
    · intro rest kept diags hrest
      simp only [filterCandidates, heval, hrest, exBind_ok, exPure_eq_ok,
        Bool.false_eq_true, if_false, List.singleton_append]

/-- C4 witness: a concrete candidate with accessible `metadata.name`
and the wrong `apiVersion`. -/
theorem checkItem_spec_witness :
    ∃ keep ds, checkItem (JVal.obj [("apiVersion", JVal.str "v1beta1"), ("metadata", JVal.obj [("name", JVal.str "r")])]) = .ok (keep, ds) ∧
      (keep = true ↔ ((JVal.obj [("apiVersion", JVal.str "v1beta1"), ("metadata", JVal.obj [("name", JVal.str "r")])]).jGet "apiVersion" = .str "kubernetes-client.io/v1" ∧
        (JVal.obj [("apiVersion", JVal.str "v1beta1"), ("metadata", JVal.obj [("name", JVal.str "r")])]).jGet "kind" = .str "ExternalSecret" ∧
        ((JVal.obj [("apiVersion", JVal.str "v1beta1"), ("metadata", JVal.obj [("name", JVal.str "r")])]).jGet "spec").truthy = true)) ∧
      (keep = true → ds = []) ∧
      (keep = false → ∃ f ev, ds = [⟨((JVal.obj [("apiVersion", JVal.str "v1beta1"), ("metadata", JVal.obj [("name", JVal.str "r")])]).jGet "metadata").jGet "name", f, ev⟩] ∧
        ((f = "apiVersion" ∧ ev = some "kubernetes-client.io/v1" ∧
            (JVal.obj [("apiVersion", JVal.str "v1beta1"), ("metadata", JVal.obj [("name", JVal.str "r")])]).jGet "apiVersion" ≠ .str "kubernetes-client.io/v1") ∨
         (f = "kind" ∧ ev = some "ExternalSecret" ∧
            (JVal.obj [("apiVersion", JVal.str "v1beta1"), ("metadata", JVal.obj [("name", JVal.str "r")])]).jGet "apiVersion" = .str "kubernetes-client.io/v1" ∧
            (JVal.obj [("apiVersion", JVal.str "v1beta1"), ("metadata", JVal.obj [("name", JVal.str "r")])]).jGet "kind" ≠ .str "ExternalSecret") ∨
         (f = "spec" ∧ ev = none ∧
            (JVal.obj [("apiVersion", JVal.str "v1beta1"), ("metadata", JVal.obj [("name", JVal.str "r")])]).jGet "apiVersion" = .str "kubernetes-client.io/v1" ∧
            (JVal.obj [("apiVersion", JVal.str "v1beta1"), ("metadata", JVal.obj [("name", JVal.str "r")])]).jGet "kind" = .str "ExternalSecret" ∧
            ((JVal.obj [("apiVersion", JVal.str "v1beta1"), ("metadata", JVal.obj [("name", JVal.str "r")])]).jGet "spec").truthy = false))) ∧
      (∀ rest kept diags, filterCandidates rest = .ok (kept, diags) →
        filterCandidates ((JVal.obj [("apiVersion", JVal.str "v1beta1"), ("metadata", JVal.obj [("name", JVal.str "r")])]) :: rest) =
          .ok ((if keep then (JVal.obj [("apiVersion", JVal.str "v1beta1"), ("metadata", JVal.obj [("name", JVal.str "r")])]) :: kept else kept), ds ++ diags)) :=
  checkItem_spec (JVal.obj [("apiVersion", JVal.str "v1beta1"), ("metadata", JVal.obj [("name", JVal.str "r")])]) rfl rfl

/-- C4 counterexample: a failing candidate without a `metadata` map.
The claim says a failing check prints a diagnostic and processing
continues, never halting the run; here the diagnostic path dereferences
`item.metadata.name` on `undefined`, so the check — and with it the
whole run — aborts with a thrown `TypeError`. -/
theorem checkItem_halts_counterexample :
    checkItem (.obj [("apiVersion", .str "wrong")]) = .error .typeError ∧
    filterCandidates [.obj [("apiVersion", .str "wrong")]] = .error .typeError ∧
    runPipeline ⟨"1h", false, "./converted"⟩ [[.obj [("apiVersion", .str "wrong")]]] =
      .error .typeError :=
  ⟨rfl, rfl, rfl⟩

/-! ## C9: parsing & flattening -/

/-- A well-formed parsed document for flattening purposes: not an empty
document (`null`), and its `items` field — when it carries one — is a
sequence (the spec's "if it has an `items` field (a sequence)"). -/
def itemsWF (d : JVal) : Bool :=
  !d.nullish &&
    (match d.jGet "items" with
     | .arr _ => true
     | .undefined => true
     | _ => false)

/-- Modelled from the amended claim: a document with an `items`
sequence contributes that sequence's elements; any other document that
is itself a sequence is spliced by `flatMap` into its elements; every
other document contributes itself as one candidate. -/
def splicedExpand (d : JVal) : List JVal :=
  match d.jGet "items" with
  | .arr xs => xs
  | _ =>
    match d with
    | .arr xs => xs
    | _ => [d]

theorem flattenDoc_wf (d : JVal) (hd : itemsWF d = true) :
    flattenDoc d = .ok (splicedExpand d) := by
  simp only [itemsWF, Bool.and_eq_true] at hd
  obtain ⟨h0, hi⟩ := hd
  have h0' : d.nullish = false := by
    cases hn : d.nullish
    · rfl
    · rw [hn] at h0; cases h0
  simp only [flattenDoc, splicedExpand, JVal.getF, h0', Bool.false_eq_true, if_false,
    exBind_ok]
  cases hitems : d.jGet "items"
  case undefined =>
    simp only [JVal.truthy, Bool.false_eq_true, if_false]
    cases d <;> rfl
  case arr xs => rfl
  all_goals (rw [hitems] at hi; simp at hi)

theorem exFlatMapM_congr {α β : Type} (f : α → Except JsError (List β)) (g : α → List β)
    (l : List α) (h : ∀ a ∈ l, f a = .ok (g a)) :
    exFlatMapM f l = .ok ((l.map g).flatten) := by
  induction l with
  | nil => rfl
  | cons a as ih =>
    have hstep : exFlatMapM f (a :: as) =
        (f a >>= fun bs => exFlatMapM f as >>= fun rest => pure (bs ++ rest)) := rfl
    rw [hstep, h a (List.mem_cons_self a as), exBind_ok,
      ih (fun x hx => h x (List.mem_cons_of_mem _ hx)), exBind_ok]
    rfl

/-- C9 (amended): when every parsed document is an actual document
(non-null) whose `items` field, if present, is a sequence, flattening
produces a flat ordered sequence preserving file order, in-file
document order and in-list element order, in which a document with an
`items` sequence contributes that sequence's elements as separate
candidates, a document that is itself a sequence (a top-level YAML
sequence file) is spliced into its elements as separate candidates,
and every other document contributes itself as one candidate. -/
theorem flattenFiles_spliced (files : List (List JVal))
    (h : ∀ docs ∈ files, ∀ d ∈ docs, itemsWF d = true) :
    flattenFiles files = .ok ((files.map
      (fun documents => (documents.map splicedExpand).flatten)).flatten) := by
  unfold flattenFiles
  refine exFlatMapM_congr _ (fun docs => (docs.map splicedExpand).flatten) files ?_
  intro docs hdocs
  exact exFlatMapM_congr _ splicedExpand docs (fun d hd => flattenDoc_wf d (h docs hdocs d hd))

/-- C9 witness: an `items` list, a bare document, a top-level sequence
document, across two files. -/
theorem flattenFiles_spliced_witness :
    flattenFiles
      [[JVal.obj [("items", .arr [.str "a", .str "b"])], JVal.obj [("kind", .str "P")]],
       [JVal.arr [.str "c", .str "d"], JVal.obj [("kind", .str "X")]]] =
      .ok (([[JVal.obj [("items", .arr [.str "a", .str "b"])], JVal.obj [("kind", .str "P")]],
             [JVal.arr [.str "c", .str "d"], JVal.obj [("kind", .str "X")]]].map
        (fun documents => (documents.map splicedExpand).flatten)).flatten) :=
  flattenFiles_spliced _ (by decide)

/-- C9 counterexample: a file whose single parsed document is a
top-level YAML sequence.  The claim says a document without an `items`
field contributes *itself* as one candidate; `flatMap` instead splices
the returned array, contributing its elements as separate candidates —
the program's output differs from the spec-shaped `flattenSpec` at
this input. -/
theorem flatten_array_document_counterexample :
    flattenFiles [[JVal.arr [.str "a", .str "b"]]] = .ok [.str "a", .str "b"] ∧
    flattenSpec [[JVal.arr [.str "a", .str "b"]]] = [JVal.arr [.str "a", .str "b"]] ∧
    ([JVal.str "a", JVal.str "b"] ≠ [JVal.arr [.str "a", .str "b"]]) := by
  refine ⟨rfl, rfl, ?_⟩
  intro hc
  simp at hc

/-! ## C7: termination conditions -/

/-- C7: whenever flattening and filtering complete, if zero eligible
resources remain the run warns, performs no writes and exits with
failure status 1 (and this outcome is guaranteed — nothing later can
throw); otherwise any completed run performed its writes without the
warning and exited with success status 0, and wrote at least one
file. -/
theorem runPipeline_exit (flags : Flags) (files : List (List JVal))
    (cands kept : List JVal) (ds : List Diag)
    (h1 : flattenFiles files = .ok cands)
    (h2 : filterCandidates cands = .ok (kept, ds)) :
    (kept = [] → runPipeline flags files = .ok ⟨ds, true, 1, []⟩) ∧
    (kept ≠ [] → ∀ r, runPipeline flags files = .ok r →
      r.warned = false ∧ r.exitCode = 0 ∧ r.writes ≠ []) := by
  constructor
  · intro hk
    subst hk
    simp only [runPipeline, h1, h2, exBind_ok, exMapM, List.length_nil, if_pos,
      exPure_eq_ok]
  · intro hk r hr
    simp only [runPipeline, h1, h2, exBind_ok] at hr
    rw [exBind_eq_ok] at hr
    obtain ⟨cleaned, hclean, hr⟩ := hr
    rw [exBind_eq_ok] at hr
    obtain ⟨esos, hesos, hr⟩ := hr
    have hlen : esos.length = kept.length := by
      rw [exMapM_length hesos, exMapM_length hclean]
    have hne : ¬esos.length = 0 := by
      rw [hlen]
      intro h0
      exact hk (List.length_eq_zero.mp h0)
    rw [if_neg hne, exBind_eq_ok] at hr
    obtain ⟨ws, hws, hr⟩ := hr
    simp only [exPure_eq_ok, Except.ok.injEq] at hr
    subst hr
    refine ⟨rfl, rfl, ?_⟩
    have hwlen := exMapM_length hws
    intro hnil
    simp only at hnil
    rw [hnil] at hwlen
    simp only [List.length_nil] at hwlen
    exact hne hwlen.symm

/-- C7 witness: a run over one file containing zero documents — zero
eligible resources — warns, writes nothing and exits 1. -/
theorem runPipeline_exit_witness :
    runPipeline ⟨"1h", false, "./converted"⟩ [[]] = .ok ⟨[], true, 1, []⟩ :=
  (runPipeline_exit ⟨"1h", false, "./converted"⟩ [[]] [] [] [] rfl rfl).1 rfl

/-! ## C8: serialization & write -/

theorem asPathSegment_default (v : JVal) (ns : String)
    (h : asPathSegment (jsOr v (.str "default")) = .ok ns) :
    (v.truthy = true ∧ v = .str ns) ∨ (v.truthy = false ∧ ns = "default") := by
  unfold jsOr at h
  by_cases ht : v.truthy = true
  · rw [if_pos ht] at h
    left
    refine ⟨ht, ?_⟩
    cases v <;> simp only [asPathSegment] at h <;> first
      | (simp only [Except.ok.injEq] at h; subst h; rfl)
      | (cases h)
  · rw [if_neg ht] at h
    right
    refine ⟨Bool.eq_false_iff.mpr ht, ?_⟩
    simp only [asPathSegment, Except.ok.injEq] at h
    exact h.symm

theorem writeFor_ok {out : String} {e : JVal} {w : Write}
    (h : writeFor out e = .ok w) :
    e.nullish = false ∧ (e.jGet "metadata").nullish = false ∧
    asPathSegment (jsOr ((e.jGet "metadata").jGet "namespace") (.str "default")) = .ok w.ns ∧
    w.content = e ∧
    w.fileName = jsToString ((e.jGet "metadata").jGet "name") ++ ".yaml" ∧
    w.dir = out ++ "/" ++ w.ns ∧
    w.path = w.dir ++ "/" ++ w.fileName := by
  simp only [writeFor] at h
  rw [exBind_eq_ok] at h
  obtain ⟨md, hmd, h⟩ := h
  rw [exBind_eq_ok] at h
  obtain ⟨nsRaw, hns, h⟩ := h
  rw [exBind_eq_ok] at h
  obtain ⟨ns, hseg, h⟩ := h
  rw [exBind_eq_ok] at h
  obtain ⟨nm, hnm, h⟩ := h
  simp only [exPure_eq_ok, Except.ok.injEq] at h
  subst h
  obtain ⟨h0, hmdv⟩ := getF_eq_ok.mp hmd
  subst hmdv
  obtain ⟨hm, hnsv⟩ := getF_eq_ok.mp hns
  subst hnsv
  obtain ⟨-, hnmv⟩ := getF_eq_ok.mp hnm
  subst hnmv
  exact ⟨h0, hm, hseg, rfl, rfl, rfl, rfl⟩

theorem exMapM_ok_forall {α β : Type} {f : α → Except JsError β} {as : List α}
    {bs : List β} (h : exMapM f as = .ok bs) :
    ∀ b ∈ bs, ∃ a ∈ as, f a = .ok b := by
  induction as generalizing bs with
  | nil =>
    simp only [exMapM, Except.ok.injEq] at h
    subst h
    simp
  | cons a as ih =>
    rw [exMapM_eq_ok_cons] at h
    obtain ⟨b0, bs', hb0, hbs', rfl⟩ := h
    intro b hb
    rcases List.mem_cons.mp hb with rfl | hb'
    · exact ⟨a, List.mem_cons_self _ _, hb0⟩
    · obtain ⟨a', ha', hfa⟩ := ih hbs' b hb'
      exact ⟨a', List.mem_cons_of_mem _ ha', hfa⟩

theorem fsAfter_aux (p : String) (ws : List Write) : ∀ acc : Option JVal,
    ws.foldl (fun acc w => if w.path = p then some w.content else acc) acc =
      (match ws.reverse.find? (fun w => w.path == p) with
       | some w' => some w'.content
       | none => acc) := by
  induction ws with
  | nil => intro acc; rfl
  | cons w ws ih =>
    intro acc
    rw [List.foldl_cons, ih, List.reverse_cons, List.find?_append]
    cases hf : ws.reverse.find? (fun w => w.path == p) with
    | some w' => rfl
    | none =>
      simp only [Option.none_or]
      cases hw : (w.path == p) with
      | false =>
        rw [if_neg (show ¬(w.path = p) by simpa using hw)]
        simp [List.find?_singleton, hw]
      | true =>
        rw [if_pos (show w.path = p by simpa using hw)]
        simp [List.find?_singleton, hw]

/-- After replaying the writes in order, the file at a path holds the
content of the last write to that path (later writes silently
overwrite earlier ones). -/
theorem fsAfter_eq_lastMatch (ws : List Write) (p : String) :
    fsAfter ws p = (ws.reverse.find? (fun w => w.path == p)).map (fun w => w.content) := by
  rw [fsAfter, fsAfter_aux]
  cases ws.reverse.find? (fun w => w.path == p) <;> rfl

/-- C8 (amended): every performed write comes from one of the
transformed resources; its file name is the template-literal rendering
of the resource's `metadata.name` followed by `.yaml`; its directory
(handed to `mkdirp`) is `<out>/<namespace>` and its path is
`<out>/<namespace>/<name>.yaml`, where the namespace is
`metadata.namespace` when that is truthy (present and non-empty) and
the literal `default` otherwise — a present-but-empty namespace string
falls back to `default`, see the counterexample; and replaying the
writes leaves, at every path, the content of the last write to that
path, so of two resources sharing namespace and name the later one's
content remains. -/
theorem emitWrites_spec (out : String) (esos : List JVal) (ws : List Write)
    (h : emitWrites out esos = .ok ws) :
    ws.length = esos.length ∧
    (∀ w ∈ ws, ∃ e ∈ esos,
      w.content = e ∧
      w.fileName = jsToString ((e.jGet "metadata").jGet "name") ++ ".yaml" ∧
      w.dir = out ++ "/" ++ w.ns ∧
      w.path = w.dir ++ "/" ++ w.fileName ∧
      ((((e.jGet "metadata").jGet "namespace").truthy = true ∧
        (e.jGet "metadata").jGet "namespace" = .str w.ns) ∨
       (((e.jGet "metadata").jGet "namespace").truthy = false ∧ w.ns = "default"))) ∧
    (∀ p, fsAfter ws p =
      (ws.reverse.find? (fun w => w.path == p)).map (fun w => w.content)) := by
  refine ⟨exMapM_length h, ?_, fun p => fsAfter_eq_lastMatch ws p⟩
  intro w hw
  obtain ⟨e, he, hfe⟩ := exMapM_ok_forall h w hw
  obtain ⟨-, -, hseg, hc, hfn, hdir, hpath⟩ := writeFor_ok hfe
  exact ⟨e, he, hc, hfn, hdir, hpath, asPathSegment_default _ _ hseg⟩

/-- C8 counterexample: a resource whose `metadata.namespace` is present
but the empty string.  The claim says the namespace used in the output
path is `metadata.namespace` whenever present; the code tests
truthiness, so the empty string falls back to `default`. -/
theorem writeFor_empty_namespace_counterexample :
    ((JVal.obj [("metadata", .obj [("name", .str "n"), ("namespace", .str "")])]).jGet
        "metadata").hasField "namespace" = true ∧
    writeFor "./converted"
        (.obj [("metadata", .obj [("name", .str "n"), ("namespace", .str "")])]) =
      .ok ⟨"default", "n.yaml", "./converted/default", "./converted/default/n.yaml",
        .obj [("metadata", .obj [("name", .str "n"), ("namespace", .str "")])]⟩ ∧
    ("default" : String) ≠ "" :=
  ⟨rfl, rfl, by decide⟩

/-- C8 witness: two resources sharing namespace `prod` and name `s` —
both writes target the same path, and the replayed filesystem keeps the
later one's content. -/
theorem emitWrites_spec_witness :
    ([(Write.mk "prod" "s.yaml" "./converted/prod" "./converted/prod/s.yaml" (JVal.obj [("metadata", JVal.obj [("name", JVal.str "s"), ("namespace", JVal.str "prod")]), ("marker", JVal.str "first")])), (Write.mk "prod" "s.yaml" "./converted/prod" "./converted/prod/s.yaml" (JVal.obj [("metadata", JVal.obj [("name", JVal.str "s"), ("namespace", JVal.str "prod")]), ("marker", JVal.str "second")]))] : List Write).length = ([(JVal.obj [("metadata", JVal.obj [("name", JVal.str "s"), ("namespace", JVal.str "prod")]), ("marker", JVal.str "first")]), (JVal.obj [("metadata", JVal.obj [("name", JVal.str "s"), ("namespace", JVal.str "prod")]), ("marker", JVal.str "second")])] : List JVal).length ∧
    (∀ w ∈ ([(Write.mk "prod" "s.yaml" "./converted/prod" "./converted/prod/s.yaml" (JVal.obj [("metadata", JVal.obj [("name", JVal.str "s"), ("namespace", JVal.str "prod")]), ("marker", JVal.str "first")])), (Write.mk "prod" "s.yaml" "./converted/prod" "./converted/prod/s.yaml" (JVal.obj [("metadata", JVal.obj [("name", JVal.str "s"), ("namespace", JVal.str "prod")]), ("marker", JVal.str "second")]))] : List Write), ∃ e ∈ ([(JVal.obj [("metadata", JVal.obj [("name", JVal.str "s"), ("namespace", JVal.str "prod")]), ("marker", JVal.str "first")]), (JVal.obj [("metadata", JVal.obj [("name", JVal.str "s"), ("namespace", JVal.str "prod")]), ("marker", JVal.str "second")])] : List JVal),
      w.content = e ∧
      w.fileName = jsToString ((e.jGet "metadata").jGet "name") ++ ".yaml" ∧
      w.dir = "./converted" ++ "/" ++ w.ns ∧
      w.path = w.dir ++ "/" ++ w.fileName ∧
      ((((e.jGet "metadata").jGet "namespace").truthy = true ∧
        (e.jGet "metadata").jGet "namespace" = .str w.ns) ∨
       (((e.jGet "metadata").jGet "namespace").truthy = false ∧ w.ns = "default"))) ∧
    (∀ p, fsAfter [(Write.mk "prod" "s.yaml" "./converted/prod" "./converted/prod/s.yaml" (JVal.obj [("metadata", JVal.obj [("name", JVal.str "s"), ("namespace", JVal.str "prod")]), ("marker", JVal.str "first")])), (Write.mk "prod" "s.yaml" "./converted/prod" "./converted/prod/s.yaml" (JVal.obj [("metadata", JVal.obj [("name", JVal.str "s"), ("namespace", JVal.str "prod")]), ("marker", JVal.str "second")]))] p =
      (([(Write.mk "prod" "s.yaml" "./converted/prod" "./converted/prod/s.yaml" (JVal.obj [("metadata", JVal.obj [("name", JVal.str "s"), ("namespace", JVal.str "prod")]), ("marker", JVal.str "first")])), (Write.mk "prod" "s.yaml" "./converted/prod" "./converted/prod/s.yaml" (JVal.obj [("metadata", JVal.obj [("name", JVal.str "s"), ("namespace", JVal.str "prod")]), ("marker", JVal.str "second")]))] : List Write).reverse.find? (fun w => w.path == p)).map
        (fun w => w.content)) :=
  emitWrites_spec "./converted" [(JVal.obj [("metadata", JVal.obj [("name", JVal.str "s"), ("namespace", JVal.str "prod")]), ("marker", JVal.str "first")]), (JVal.obj [("metadata", JVal.obj [("name", JVal.str "s"), ("namespace", JVal.str "prod")]), ("marker", JVal.str "second")])] [(Write.mk "prod" "s.yaml" "./converted/prod" "./converted/prod/s.yaml" (JVal.obj [("metadata", JVal.obj [("name", JVal.str "s"), ("namespace", JVal.str "prod")]), ("marker", JVal.str "first")])), (Write.mk "prod" "s.yaml" "./converted/prod" "./converted/prod/s.yaml" (JVal.obj [("metadata", JVal.obj [("name", JVal.str "s"), ("namespace", JVal.str "prod")]), ("marker", JVal.str "second")]))] rfl

/-! ## C2: emitted resources and `metadata.name` -/

theorem kesToEso_metadata {ri : String} {cl : Bool} {kes eso : JVal}
    (h : kesToEso ri cl kes = .ok eso) :
    eso.jGet "metadata" = kes.jGet "metadata" := by
  obtain ⟨-, -, tail, rfl⟩ := kesToEso_shape ri cl kes eso h
  rfl

theorem cleanKesItem_name {item c : JVal} (hno : noUndefined item = true)
    (h : cleanKesItem item = .ok c) :
    (c.jGet "metadata").jGet "name" = (item.jGet "metadata").jGet "name" := by
  simp only [cleanKesItem, jsonRound_self _ hno] at h
  rw [exBind_eq_ok] at h
  obtain ⟨md, hmd, h⟩ := h
  rw [exBind_eq_ok] at h
  obtain ⟨md1, hdel, h⟩ := h
  simp only [exPure_eq_ok, Except.ok.injEq] at h
  subst h
  obtain ⟨h0, hmdv⟩ := getF_eq_ok.mp hmd
  subst hmdv
  cases item with
  | obj fs =>
    have hcget : (((JVal.obj fs).setField "metadata"
        (stripMetaAnnot md1)).removeField "status").jGet "metadata" = stripMetaAnnot md1 := by
      simp only [JVal.setField, JVal.removeField, JVal.jGet]
      rw [lookup_removeKey, if_neg (show ("metadata" : String) ≠ "status" by decide),
        lookup_setInList, if_pos rfl, Option.getD_some]
    rw [hcget]
    cases hmdc : (JVal.obj fs).jGet "metadata" with
    | undefined => rw [hmdc] at hdel; cases hdel
    | null => rw [hmdc] at hdel; cases hdel
    | obj mfs =>
      rw [hmdc] at hdel
      simp only [deleteManagedMeta, Except.ok.injEq] at hdel
      subst hdel
      simp only [stripMetaAnnot, JVal.jGet]
      rw [lookup_stripAnnotMap, lookup_strip_of_kept _ _ (by decide)]
      cases hl : lookupField mfs "name" <;> simp [hl]
    | bool b =>
      rw [hmdc] at hdel
      simp only [deleteManagedMeta, Except.ok.injEq] at hdel
      subst hdel
      rfl
    | num n =>
      rw [hmdc] at hdel
      simp only [deleteManagedMeta, Except.ok.injEq] at hdel
      subst hdel
      rfl
    | str s =>
      rw [hmdc] at hdel
      simp only [deleteManagedMeta, Except.ok.injEq] at hdel
      subst hdel
      rfl
    | arr xs =>
      rw [hmdc] at hdel
      simp only [deleteManagedMeta, Except.ok.injEq] at hdel
      subst hdel
      rfl
  | undefined => simp [JVal.nullish] at h0
  | null => simp [JVal.nullish] at h0
  | bool b => simp [JVal.jGet, deleteManagedMeta] at hdel
  | num n => simp [JVal.jGet, deleteManagedMeta] at hdel
  | str s => simp [JVal.jGet, deleteManagedMeta] at hdel
  | arr xs => simp [JVal.jGet, deleteManagedMeta] at hdel

/-- C2 (amended): the pipeline never inspects `metadata.name` for
eligibility.  For every candidate that makes it through cleaning and
transformation, the emitted resource's `metadata.name` equals the
source candidate's `metadata.name` unchanged — including when that is
`undefined` — and the written file's name is the template-literal
rendering of that value followed by `.yaml` (so a candidate without
`metadata.name` still produces a written file, named
`undefined.yaml`; see the witness and the counterexample). -/
theorem emitted_name_preserved (ri : String) (cl : Bool) (out : String)
    (item c e : JVal) (w : Write)
    (hno : noUndefined item = true)
    (hclean : cleanKesItem item = .ok c)
    (heso : kesToEso ri cl c = .ok e)
    (hw : writeFor out e = .ok w) :
    (e.jGet "metadata").jGet "name" = (item.jGet "metadata").jGet "name" ∧
    w.fileName = jsToString ((item.jGet "metadata").jGet "name") ++ ".yaml" := by
  have hm := kesToEso_metadata heso
  have hn := cleanKesItem_name hno hclean
  have hname : (e.jGet "metadata").jGet "name" = (item.jGet "metadata").jGet "name" := by
    rw [hm, hn]
  obtain ⟨-, -, -, -, hfn, -, -⟩ := writeFor_ok hw
  exact ⟨hname, by rw [hfn, hname]⟩

/-- C2 witness: the nameless candidate — its emitted resource still has
the (undefined) name of the source and its file is `undefined.yaml`. -/
theorem emitted_name_preserved_witness :
    ((JVal.obj
      [("apiVersion", JVal.str "external-secrets.io/v1alpha1"),
       ("kind", JVal.str "ExternalSecret"),
       ("metadata", JVal.obj []),
       ("spec", JVal.obj
         [("refreshInterval", JVal.str "1h"),
          ("secretStoreRef", JVal.obj
            [("name", JVal.undefined), ("kind", JVal.str "SecretStore")])])]).jGet "metadata").jGet "name" = ((JVal.obj
      [("apiVersion", JVal.str "kubernetes-client.io/v1"),
       ("kind", JVal.str "ExternalSecret"),
       ("metadata", JVal.obj []),
       ("spec", JVal.obj [])]).jGet "metadata").jGet "name" ∧
    ((Write.mk "default" "undefined.yaml" "./converted/default" "./converted/default/undefined.yaml" (JVal.obj
      [("apiVersion", JVal.str "external-secrets.io/v1alpha1"),
       ("kind", JVal.str "ExternalSecret"),
       ("metadata", JVal.obj []),
       ("spec", JVal.obj
         [("refreshInterval", JVal.str "1h"),
          ("secretStoreRef", JVal.obj
            [("name", JVal.undefined), ("kind", JVal.str "SecretStore")])])])) : Write).fileName =
      jsToString (((JVal.obj
      [("apiVersion", JVal.str "kubernetes-client.io/v1"),
       ("kind", JVal.str "ExternalSecret"),
       ("metadata", JVal.obj []),
       ("spec", JVal.obj [])]).jGet "metadata").jGet "name") ++ ".yaml" :=
  emitted_name_preserved "1h" false "./converted" (JVal.obj
      [("apiVersion", JVal.str "kubernetes-client.io/v1"),
       ("kind", JVal.str "ExternalSecret"),
       ("metadata", JVal.obj []),
       ("spec", JVal.obj [])]) (JVal.obj
      [("apiVersion", JVal.str "kubernetes-client.io/v1"),
       ("kind", JVal.str "ExternalSecret"),
       ("metadata", JVal.obj []),
       ("spec", JVal.obj [])]) (JVal.obj
      [("apiVersion", JVal.str "external-secrets.io/v1alpha1"),
       ("kind", JVal.str "ExternalSecret"),
       ("metadata", JVal.obj []),
       ("spec", JVal.obj
         [("refreshInterval", JVal.str "1h"),
          ("secretStoreRef", JVal.obj
            [("name", JVal.undefined), ("kind", JVal.str "SecretStore")])])]) (Write.mk "default" "undefined.yaml" "./converted/default" "./converted/default/undefined.yaml" (JVal.obj
      [("apiVersion", JVal.str "external-secrets.io/v1alpha1"),
       ("kind", JVal.str "ExternalSecret"),
       ("metadata", JVal.obj []),
       ("spec", JVal.obj
         [("refreshInterval", JVal.str "1h"),
          ("secretStoreRef", JVal.obj
            [("name", JVal.undefined), ("kind", JVal.str "SecretStore")])])])) rfl rfl rfl rfl

/-- C2 counterexample: a candidate with no `metadata.name` at all
passes the filter (which only checks `apiVersion`, `kind`, `spec`),
is transformed, and a file is written for it (at
`<out>/default/undefined.yaml`) — the claim says no such candidate ever
results in a written output file. -/
theorem runPipeline_nameless_counterexample :
    ((JVal.obj
      [("apiVersion", JVal.str "kubernetes-client.io/v1"),
       ("kind", JVal.str "ExternalSecret"),
       ("metadata", JVal.obj []),
       ("spec", JVal.obj [])]).jGet "metadata").hasField "name" = false ∧
    runPipeline ⟨"1h", false, "./converted"⟩ [[(JVal.obj
      [("apiVersion", JVal.str "kubernetes-client.io/v1"),
       ("kind", JVal.str "ExternalSecret"),
       ("metadata", JVal.obj []),
       ("spec", JVal.obj [])])]] =
      .ok ⟨[], false, 0, [(Write.mk "default" "undefined.yaml" "./converted/default" "./converted/default/undefined.yaml" (JVal.obj
      [("apiVersion", JVal.str "external-secrets.io/v1alpha1"),
       ("kind", JVal.str "ExternalSecret"),
       ("metadata", JVal.obj []),
       ("spec", JVal.obj
         [("refreshInterval", JVal.str "1h"),
          ("secretStoreRef", JVal.obj
            [("name", JVal.undefined), ("kind", JVal.str "SecretStore")])])]))]⟩ :=
  ⟨rfl, rfl⟩

/-! ## C10: nullish candidates and the thrown `TypeError` -/

theorem checkItem_err_of_nullish (item : JVal) (hn : item.nullish = true) :
    checkItem item = .error .typeError := by
  simp [checkItem, fail, JVal.getF, hn]

theorem fail_pass_some (item : JVal) (f v : String) (h0 : item.nullish = false)
    (heq : strictEqStr (item.jGet f) v = true) :
    fail item f (some v) = .ok (false, none) := by
  simp [fail, JVal.getF, h0, heq]

theorem fail_err_some (item : JVal) (f v : String) (h0 : item.nullish = false)
    (hm : (item.jGet "metadata").nullish = true)
    (hne : strictEqStr (item.jGet f) v = false) :
    fail item f (some v) = .error .typeError := by
  simp [fail, JVal.getF, h0, hne, hm]

theorem fail_err_none (item : JVal) (f : String) (h0 : item.nullish = false)
    (hm : (item.jGet "metadata").nullish = true)
    (hne : (item.jGet f).truthy = false) :
    fail item f none = .error .typeError := by
  simp [fail, JVal.getF, h0, hne, hm]

theorem fail_pass_none (item : JVal) (f : String) (h0 : item.nullish = false)
    (ht : (item.jGet f).truthy = true) :
    fail item f none = .ok (false, none) := by
  simp [fail, JVal.getF, h0, ht]

/-- With an inaccessible `metadata`, a candidate either passes all
three checks silently or the first failing check throws while printing
its diagnostic. -/
theorem checkItem_nullish_metadata (item : JVal) (h0 : item.nullish = false)
    (hm : (item.jGet "metadata").nullish = true) :
    (checkItem item = .ok (true, []) ∧
      item.jGet "apiVersion" = .str "kubernetes-client.io/v1" ∧
      item.jGet "kind" = .str "ExternalSecret" ∧
      (item.jGet "spec").truthy = true) ∨
    checkItem item = .error .typeError := by
  by_cases hA : strictEqStr (item.jGet "apiVersion") "kubernetes-client.io/v1" = true
  · by_cases hK : strictEqStr (item.jGet "kind") "ExternalSecret" = true
    · by_cases hS : (item.jGet "spec").truthy = true
      · left
        refine ⟨?_, (strictEqStr_iff _ _).mp hA, (strictEqStr_iff _ _).mp hK, hS⟩
        simp [checkItem, fail_pass_some item _ _ h0 hA, fail_pass_some item _ _ h0 hK,
          fail_pass_none item _ h0 hS]
      · right
        simp [checkItem, fail_pass_some item _ _ h0 hA, fail_pass_some item _ _ h0 hK,
          fail_err_none item _ h0 hm (Bool.eq_false_iff.mpr hS)]
    · right
      simp [checkItem, fail_pass_some item _ _ h0 hA,
        fail_err_some item _ _ h0 hm (Bool.eq_false_iff.mpr hK)]
  · right
    simp [checkItem, fail_err_some item _ _ h0 hm (Bool.eq_false_iff.mpr hA)]

/-- With an inaccessible `metadata`, `delete copy.metadata.<key>`
throws. -/
theorem cleanKesItem_err (item : JVal) (hno : noUndefined item = true)
    (h0 : item.nullish = false) (hm : (item.jGet "metadata").nullish = true) :
    cleanKesItem item = .error .typeError := by
  simp only [cleanKesItem, jsonRound_self _ hno, JVal.getF, h0, Bool.false_eq_true,
    if_false, exBind_ok]
  cases hmd : item.jGet "metadata" <;> rw [hmd] at hm <;>
    simp_all [JVal.nullish, deleteManagedMeta]

/-- C10 (amended): the skip-and-continue handling is only total for
candidates carrying an accessible (non-nullish) `metadata`: a `null`
or `undefined` parsed document makes flattening throw a `TypeError`
(`parsed.items`), and a candidate whose `metadata` field is missing or
`null` makes the run throw — at the diagnostic's `item.metadata.name`
dereference when some eligibility check fails, or at cleaning's
`copy.metadata` delete when all checks pass.  (A candidate whose
`metadata` is a non-null non-map value such as a sequence does *not*
abort — see the counterexample.) -/
theorem nullish_metadata_aborts (item : JVal) (rest : List JVal)
    (hno : noUndefined item = true)
    (h : item.nullish = true ∨ (item.jGet "metadata").nullish = true) :
    flattenDoc .null = .error .typeError ∧
    flattenDoc .undefined = .error .typeError ∧
    (filterCandidates (item :: rest) = .error .typeError ∨
     (∃ kept ds, filterCandidates (item :: rest) = .ok (item :: kept, ds) ∧
       exMapM cleanKesItem (item :: kept) = .error .typeError)) := by
  refine ⟨rfl, rfl, ?_⟩
  by_cases hn : item.nullish = true
  · left
    simp [filterCandidates, checkItem_err_of_nullish item hn]
  · have h0 : item.nullish = false := Bool.eq_false_iff.mpr hn
    have hm : (item.jGet "metadata").nullish = true := by
      rcases h with h | h
      · exact absurd h hn
      · exact h
    rcases checkItem_nullish_metadata item h0 hm with ⟨hchk, -, -, -⟩ | hchk
    · cases hrest : filterCandidates rest with
      | error e =>
        left
        cases e
        simp [filterCandidates, hchk, hrest]
      | ok kd =>
        obtain ⟨kept, ds⟩ := kd
        right
        refine ⟨kept, ds, ?_, ?_⟩
        · simp [filterCandidates, hchk, hrest]
        · have hstep : exMapM cleanKesItem (item :: kept) =
              (cleanKesItem item >>= fun b =>
                exMapM cleanKesItem kept >>= fun bs => pure (b :: bs)) := rfl
          rw [hstep, cleanKesItem_err item hno h0 hm, exBind_error]
    · left
      simp [filterCandidates, hchk]

/-- C10 witness: a candidate with no `metadata` field at all that
passes every eligibility check — the run reaches cleaning and throws
there. -/
theorem nullish_metadata_aborts_witness :
    flattenDoc .null = .error .typeError ∧
    flattenDoc .undefined = .error .typeError ∧
    (filterCandidates [JVal.obj
        [("apiVersion", .str "kubernetes-client.io/v1"),
         ("kind", .str "ExternalSecret"),
         ("spec", .obj [])]] = .error .typeError ∨
     (∃ kept ds, filterCandidates [JVal.obj
        [("apiVersion", .str "kubernetes-client.io/v1"),
         ("kind", .str "ExternalSecret"),
         ("spec", .obj [])]] = .ok (JVal.obj
        [("apiVersion", .str "kubernetes-client.io/v1"),
         ("kind", .str "ExternalSecret"),
         ("spec", .obj [])] :: kept, ds) ∧
       exMapM cleanKesItem (JVal.obj
        [("apiVersion", .str "kubernetes-client.io/v1"),
         ("kind", .str "ExternalSecret"),
         ("spec", .obj [])] :: kept) = .error .typeError)) :=
  nullish_metadata_aborts
    (.obj
      [("apiVersion", .str "kubernetes-client.io/v1"),
       ("kind", .str "ExternalSecret"),
       ("spec", .obj [])]) [] rfl (Or.inr rfl)

/-- C10 counterexample: a candidate whose `metadata` is a sequence —
it "lacks a metadata map", yet nothing throws: property reads on an
array yield `undefined`, the deletes are no-ops, and the run completes
normally (exit 0) after writing `default/undefined.yaml`. -/
theorem metadata_array_no_abort_counterexample :
    runPipeline ⟨"1h", false, "./converted"⟩
      [[.obj
        [("apiVersion", .str "kubernetes-client.io/v1"),
         ("kind", .str "ExternalSecret"),
         ("metadata", .arr []),
         ("spec", .obj [])]]] =
      .ok ⟨[], false, 0,
        [⟨"default", "undefined.yaml", "./converted/default",
          "./converted/default/undefined.yaml",
          .obj
            [("apiVersion", .str "external-secrets.io/v1alpha1"),
             ("kind", .str "ExternalSecret"),
             ("metadata", .arr []),
             ("spec", .obj
               [("refreshInterval", .str "1h"),
                ("secretStoreRef", .obj
                  [("name", .undefined), ("kind", .str "SecretStore")])])]⟩]⟩ :=
  rfl

end KesToEso
